import Mathlib

/-!
Verification of the look-ahead planning re-optimization core.

This file gives a shallow embedding of the scheduling core of the
repository (src/planning_tool/rescheduler.py, model.py, main.py) and proves
properties of the embedded definitions.

Modelling conventions:
* Python ints become `ℤ` (or `ℕ` for loop/range indices of the MILP builder,
  which are built from `range(1, N+1)`-style loops over nonnegative bounds);
* Python floats (delay hours, durations, progress fractions, and datetimes
  measured in hours) become `ℚ`, with the arithmetic the source performs
  (`+`, `-`, `max`, `min`, `/`, comparisons) mapped to the exact rational
  operations;
* `pandas` missing values (NaN / None) become `Option` fields: a `pd.notna`
  / `is None` test becomes a match on the option;
* Python truthiness tests on numbers (`if actual_start:`) become
  `pyTruthyQ`, which is false exactly on `none` and `some 0`;
* Python `int(x)` (truncation toward zero) becomes `pyInt`;
* a `DataFrame` of the per-module solution becomes `List Row`, one `Row`
  per DataFrame row, with the columns the core reads as fields.
-/

/-- Python `int(x)` applied to a float/number: truncation toward zero. -/
def pyInt (q : ℚ) : ℤ := Int.tdiv q.num (q.den : ℤ)

theorem pyInt_intCast (n : ℤ) : pyInt (n : ℚ) = n := by
  simp [pyInt, Int.tdiv_one]

/-- Python truthiness of an optional number: `None`, `0` and `0.0` are falsy. -/
def pyTruthyQ : Option ℚ → Bool
  | none => false
  | some v => v != 0

/-- Phase of a module, `rescheduler.py` strings "FABRICATION" / "TRANSPORT" /
"INSTALLATION" as an enumeration. -/
inductive Phase where
  | FABRICATION
  | TRANSPORT
  | INSTALLATION
deriving DecidableEq, Repr

/-- Task status, `rescheduler.py` strings "COMPLETED" / "IN_PROGRESS" /
"NOT_STARTED" as an enumeration. -/
inductive Status where
  | COMPLETED
  | IN_PROGRESS
  | NOT_STARTED
deriving DecidableEq, Repr

/-- Delay type of a `DelayInfo` record. -/
inductive DelayType where
  | DURATION_EXTENSION
  | START_POSTPONEMENT
deriving DecidableEq, Repr

/-- The dataclass `DelayInfo` of rescheduler.py (the free-text fields that the
algorithms never read are kept as plain data). -/
structure DelayInfo where
  moduleId : String
  delayType : DelayType
  phase : Phase
  delayHours : ℚ
  detectedAtTime : ℤ
  reason : Option String := none
deriving Repr, DecidableEq

/-- The dataclass `TaskState` of rescheduler.py.  Start/finish indices live in
`Option ℚ` because they are read from a DataFrame (NaN-able, possibly float
after delay arithmetic). -/
structure TaskState where
  moduleId : String
  moduleIndex : ℤ
  phase : Phase
  status : Status
  startTime : Option ℚ
  finishTime : Option ℚ
  progress : ℚ
  actualStartTime : Option ℚ := none
deriving Repr, DecidableEq

/-- One row of the per-module solution DataFrame, with the columns read by the
re-optimization subsystem.  The three `Earliest_*` columns are the lower-bound
columns maintained by `DelayApplier`. -/
structure Row where
  moduleId : String
  moduleIndex : ℤ
  productionStart : Option ℚ
  productionDuration : ℚ
  transportStart : Option ℚ
  transportDuration : ℚ
  installationStart : Option ℚ
  installationDuration : ℚ
  arrivalTime : Option ℚ
  earliestProductionStart : Option ℚ := none
  earliestTransportStart : Option ℚ := none
  earliestInstallationStart : Option ℚ := none
deriving Repr, DecidableEq

/-- Planned start column of a row for a phase (Production_Start /
Transport_Start / Installation_Start). -/
def phaseStart (r : Row) : Phase → Option ℚ
  | Phase.FABRICATION => r.productionStart
  | Phase.TRANSPORT => r.transportStart
  | Phase.INSTALLATION => r.installationStart

/-- Duration column of a row for a phase (Production_Duration /
Transport_Duration / Installation_Duration). -/
def phaseDuration (r : Row) : Phase → ℚ
  | Phase.FABRICATION => r.productionDuration
  | Phase.TRANSPORT => r.transportDuration
  | Phase.INSTALLATION => r.installationDuration

/-- Earliest-start lower-bound column of a row for a phase
(Earliest_Production_Start / Earliest_Transport_Start /
Earliest_Installation_Start). -/
def phaseEarliest (r : Row) : Phase → Option ℚ
  | Phase.FABRICATION => r.earliestProductionStart
  | Phase.TRANSPORT => r.earliestTransportStart
  | Phase.INSTALLATION => r.earliestInstallationStart

/-! ## DelayApplier (rescheduler.py lines 239-372)

`DelayApplier.apply_delays` walks the list of delay records; for each record
whose module id occurs in the solution DataFrame it updates the first matching
row (`df[df['Module_ID'] == module_id].index[0]`).  Task states are consulted
only for debug logging, not for the update itself. -/

/-- Body of `DelayApplier._apply_duration_extension`: add the delay magnitude
to the named phase's duration column, unconditionally. -/
def applyDurationExtension (r : Row) (phase : Phase) (delayHours : ℚ) : Row :=
  match phase with
  | Phase.FABRICATION => { r with productionDuration := r.productionDuration + delayHours }
  | Phase.TRANSPORT => { r with transportDuration := r.transportDuration + delayHours }
  | Phase.INSTALLATION => { r with installationDuration := r.installationDuration + delayHours }

/-- The helper `_safe_compare_lb` of `_apply_start_postponement`: accept the
new lower bound when there is no usable current one, otherwise exactly when it
is strictly greater. -/
def safeCompareLb (newLb : ℤ) (currentLb : Option ℚ) : Bool :=
  match currentLb with
  | none => true
  | some c => decide ((newLb : ℚ) > c)

/-- Body of `DelayApplier._apply_start_postponement`: when the planned start
of the phase is present, propose `int(planned_start) + int(delay_hours)` as a
new earliest-start lower bound and keep it only if `_safe_compare_lb` accepts
it.  The planned start column itself is never written. -/
def applyStartPostponement (r : Row) (phase : Phase) (delayHoursQ : ℚ) : Row :=
  let delayHours : ℤ := pyInt delayHoursQ
  match phase with
  | Phase.FABRICATION =>
    match r.productionStart with
    | some baseStart =>
      let newLb : ℤ := pyInt baseStart + delayHours
      if safeCompareLb newLb r.earliestProductionStart then
        { r with earliestProductionStart := some (newLb : ℚ) }
      else r
    | none => r
  | Phase.TRANSPORT =>
    match r.transportStart with
    | some transportStart =>
      let newLb : ℤ := pyInt transportStart + delayHours
      if safeCompareLb newLb r.earliestTransportStart then
        { r with earliestTransportStart := some (newLb : ℚ) }
      else r
    | none => r
  | Phase.INSTALLATION =>
    match r.installationStart with
    | some installStart =>
      let newLb : ℤ := pyInt installStart + delayHours
      if safeCompareLb newLb r.earliestInstallationStart then
        { r with earliestInstallationStart := some (newLb : ℚ) }
      else r
    | none => r

/-- Update the first row whose Module_ID matches (mirrors
`df[df['Module_ID'] == module_id].index[0]`); when no row matches the delay
record is skipped (`continue`), which is the identity here. -/
def updateFirstRow (df : List Row) (moduleId : String) (f : Row → Row) : List Row :=
  match df with
  | [] => []
  | r :: rs =>
    if r.moduleId = moduleId then f r :: rs
    else r :: updateFirstRow rs moduleId f

/-- One iteration of the delay loop in `DelayApplier.apply_delays`. -/
def applyOneDelay (df : List Row) (delay : DelayInfo) : List Row :=
  match delay.delayType with
  | DelayType.DURATION_EXTENSION =>
    updateFirstRow df delay.moduleId
      (fun r => applyDurationExtension r delay.phase delay.delayHours)
  | DelayType.START_POSTPONEMENT =>
    updateFirstRow df delay.moduleId
      (fun r => applyStartPostponement r delay.phase delay.delayHours)

/-- `DelayApplier.apply_delays`: fold the delay records over the working copy
of the solution DataFrame. -/
def applyDelays (df : List Row) (delays : List DelayInfo) : List Row :=
  delays.foldl applyOneDelay df

/-! ### Lemmas about the delay-application primitives -/

theorem applyDurationExtension_moduleId (r : Row) (ph : Phase) (h : ℚ) :
    (applyDurationExtension r ph h).moduleId = r.moduleId := by
  cases ph <;> rfl

theorem applyStartPostponement_moduleId (r : Row) (ph : Phase) (h : ℚ) :
    (applyStartPostponement r ph h).moduleId = r.moduleId := by
  cases ph <;> unfold applyStartPostponement <;> dsimp only
  · cases r.productionStart with
    | none => rfl
    | some s => dsimp only; split <;> rfl
  · cases r.transportStart with
    | none => rfl
    | some s => dsimp only; split <;> rfl
  · cases r.installationStart with
    | none => rfl
    | some s => dsimp only; split <;> rfl

theorem find?_updateFirstRow (df : List Row) (mid : String) (f : Row → Row)
    (hf : ∀ r, (f r).moduleId = r.moduleId) :
    (updateFirstRow df mid f).find? (fun r => r.moduleId == mid)
      = (df.find? (fun r => r.moduleId == mid)).map f := by
  induction df with
  | nil => rfl
  | cons r rs ih =>
    by_cases h : r.moduleId = mid
    · simp [updateFirstRow, h, List.find?_cons, hf]
    · simp [updateFirstRow, h, List.find?_cons, ih]

theorem applyDurationExtension_phaseDuration (r : Row) (ph : Phase) (h : ℚ) :
    phaseDuration (applyDurationExtension r ph h) ph = phaseDuration r ph + h := by
  cases ph <;> rfl

/-- Effect of one start postponement on the columns of its own phase: the
lower bound is replaced by `int(start) + int(hours)` exactly when
`_safe_compare_lb` accepts it, and the planned start is untouched. -/
theorem applyStartPostponement_same_phase (r : Row) (ph : Phase) (hq : ℚ) (b : ℚ)
    (hstart : phaseStart r ph = some b) :
    phaseEarliest (applyStartPostponement r ph hq) ph =
      (if safeCompareLb (pyInt b + pyInt hq) (phaseEarliest r ph)
        then some ((pyInt b + pyInt hq : ℤ) : ℚ) else phaseEarliest r ph)
      ∧ phaseStart (applyStartPostponement r ph hq) ph = phaseStart r ph := by
  cases ph <;> simp only [phaseStart] at hstart <;>
    simp only [applyStartPostponement, hstart, phaseEarliest, phaseStart] <;>
    split <;> simp_all [phaseEarliest, phaseStart]

/-- A start postponement never decreases an existing lower bound, on any
phase column. -/
theorem applyStartPostponement_lb_mono (r : Row) (ph2 dph : Phase) (hq : ℚ) (l : ℚ)
    (hl : phaseEarliest r ph2 = some l) :
    ∃ l2, phaseEarliest (applyStartPostponement r dph hq) ph2 = some l2 ∧ l ≤ l2 := by
  cases dph <;> unfold applyStartPostponement <;> dsimp only
  · cases hs : r.productionStart with
    | none => exact ⟨l, hl, le_refl l⟩
    | some s =>
      dsimp only; split
      · cases ph2 <;> simp only [phaseEarliest] at hl ⊢
        · rename_i hcmp
          refine ⟨_, rfl, ?_⟩
          simp only [safeCompareLb, hl] at hcmp
          simp only [decide_eq_true_eq] at hcmp
          exact le_of_lt hcmp
        · exact ⟨l, hl, le_refl l⟩
        · exact ⟨l, hl, le_refl l⟩
      · exact ⟨l, hl, le_refl l⟩
  · cases hs : r.transportStart with
    | none => exact ⟨l, hl, le_refl l⟩
    | some s =>
      dsimp only; split
      · cases ph2 <;> simp only [phaseEarliest] at hl ⊢
        · exact ⟨l, hl, le_refl l⟩
        · rename_i hcmp
          refine ⟨_, rfl, ?_⟩
          simp only [safeCompareLb, hl] at hcmp
          simp only [decide_eq_true_eq] at hcmp
          exact le_of_lt hcmp
        · exact ⟨l, hl, le_refl l⟩
      · exact ⟨l, hl, le_refl l⟩
  · cases hs : r.installationStart with
    | none => exact ⟨l, hl, le_refl l⟩
    | some s =>
      dsimp only; split
      · cases ph2 <;> simp only [phaseEarliest] at hl ⊢
        · exact ⟨l, hl, le_refl l⟩
        · exact ⟨l, hl, le_refl l⟩
        · rename_i hcmp
          refine ⟨_, rfl, ?_⟩
          simp only [safeCompareLb, hl] at hcmp
          simp only [decide_eq_true_eq] at hcmp
          exact le_of_lt hcmp
      · exact ⟨l, hl, le_refl l⟩

/-- A start postponement never writes any planned-start column. -/
theorem applyStartPostponement_phaseStart (r : Row) (ph2 dph : Phase) (hq : ℚ) :
    phaseStart (applyStartPostponement r dph hq) ph2 = phaseStart r ph2 := by
  cases dph <;> unfold applyStartPostponement <;> dsimp only
  · cases hps : r.productionStart with
    | none => rfl
    | some s =>
      dsimp only; split
      · cases ph2 <;> simp [phaseStart, hps]
      · rfl
  · cases hps : r.transportStart with
    | none => rfl
    | some s =>
      dsimp only; split
      · cases ph2 <;> simp [phaseStart, hps]
      · rfl
  · cases hps : r.installationStart with
    | none => rfl
    | some s =>
      dsimp only; split
      · cases ph2 <;> simp [phaseStart, hps]
      · rfl

/-- C4: applying two START_POSTPONEMENT delays of h1 and then h2 hours to the
same module-phase via `DelayApplier.apply_delays` yields an earliest-start
lower bound of `planned_start + max h1 h2` (not `+ (h1 + h2)`); moreover a
start postponement never decreases an existing lower bound and never
overwrites any planned start column. -/
theorem startPostponement_max_lower_bound
    (df : List Row) (mid : String) (ph : Phase) (s h1 h2 : ℤ)
    (t1 t2 : ℤ) (rsn1 rsn2 : Option String) (r : Row)
    (hfind : df.find? (fun row => row.moduleId == mid) = some r)
    (hstart : phaseStart r ph = some (s : ℚ))
    (hlb : phaseEarliest r ph = none) :
    (∃ r2,
      (applyDelays df
          [⟨mid, DelayType.START_POSTPONEMENT, ph, (h1 : ℚ), t1, rsn1⟩,
           ⟨mid, DelayType.START_POSTPONEMENT, ph, (h2 : ℚ), t2, rsn2⟩]).find?
            (fun row => row.moduleId == mid) = some r2
      ∧ phaseEarliest r2 ph = some ((s + max h1 h2 : ℤ) : ℚ)
      ∧ phaseStart r2 ph = some (s : ℚ))
    ∧ (∀ (row : Row) (ph2 dph : Phase) (hq : ℚ) (l : ℚ),
        phaseEarliest row ph2 = some l →
        ∃ l2, phaseEarliest (applyStartPostponement row dph hq) ph2 = some l2 ∧ l ≤ l2)
    ∧ (∀ (row : Row) (ph2 dph : Phase) (hq : ℚ),
        phaseStart (applyStartPostponement row dph hq) ph2 = phaseStart row ph2) := by
  refine ⟨?_, applyStartPostponement_lb_mono, applyStartPostponement_phaseStart⟩
  have e : applyDelays df
      [⟨mid, DelayType.START_POSTPONEMENT, ph, (h1 : ℚ), t1, rsn1⟩,
       ⟨mid, DelayType.START_POSTPONEMENT, ph, (h2 : ℚ), t2, rsn2⟩]
      = updateFirstRow (updateFirstRow df mid
          (fun row => applyStartPostponement row ph (h1 : ℚ))) mid
          (fun row => applyStartPostponement row ph (h2 : ℚ)) := rfl
  refine ⟨applyStartPostponement (applyStartPostponement r ph (h1 : ℚ)) ph (h2 : ℚ), ?_, ?_, ?_⟩
  · rw [e, find?_updateFirstRow _ _ _ (fun rr => applyStartPostponement_moduleId rr ph (h2 : ℚ)),
        find?_updateFirstRow _ _ _ (fun rr => applyStartPostponement_moduleId rr ph (h1 : ℚ)),
        hfind]
    rfl
  · have A1 := applyStartPostponement_same_phase r ph (h1 : ℚ) (s : ℚ) hstart
    have hlb1 : phaseEarliest (applyStartPostponement r ph (h1 : ℚ)) ph
        = some ((s + h1 : ℤ) : ℚ) := by
      rw [A1.1, hlb, pyInt_intCast, pyInt_intCast]
      simp [safeCompareLb]
    have hstart1 : phaseStart (applyStartPostponement r ph (h1 : ℚ)) ph = some (s : ℚ) :=
      A1.2.trans hstart
    have A2 := applyStartPostponement_same_phase
      (applyStartPostponement r ph (h1 : ℚ)) ph (h2 : ℚ) (s : ℚ) hstart1
    rw [A2.1, hlb1, pyInt_intCast, pyInt_intCast]
    by_cases hcmp : h1 < h2
    · have : safeCompareLb (s + h2) (some ((s + h1 : ℤ) : ℚ)) = true := by
        simp only [safeCompareLb, decide_eq_true_eq, gt_iff_lt, Int.cast_add]
        exact add_lt_add_left (by exact_mod_cast hcmp) _
      rw [if_pos this, max_eq_right (le_of_lt hcmp)]
    · have : safeCompareLb (s + h2) (some ((s + h1 : ℤ) : ℚ)) = false := by
        simp only [safeCompareLb, decide_eq_false_iff_not, gt_iff_lt, not_lt, Int.cast_add]
        exact add_le_add_left (by exact_mod_cast not_lt.mp hcmp) _
      have hneg : ¬ (safeCompareLb (s + h2) (some ((s + h1 : ℤ) : ℚ)) = true) := by
        rw [this]; exact Bool.false_ne_true
      rw [if_neg hneg, max_eq_left (not_lt.mp hcmp)]
  · have A1 := applyStartPostponement_same_phase r ph (h1 : ℚ) (s : ℚ) hstart
    have hstart1 : phaseStart (applyStartPostponement r ph (h1 : ℚ)) ph = some (s : ℚ) :=
      A1.2.trans hstart
    exact (applyStartPostponement_phaseStart _ ph ph (h2 : ℚ)).trans hstart1

/-- Witness for C4 at a concrete input: planned start 5, postponements of 2
then 3 hours give the lower bound 5 + max 2 3 = 8 while the planned start
stays 5. -/
theorem startPostponement_max_lower_bound_witness :
    ∃ r2,
      (applyDelays
          [{ moduleId := "A", moduleIndex := 1, productionStart := some 5,
             productionDuration := 4, transportStart := some 11, transportDuration := 2,
             installationStart := some 14, installationDuration := 3,
             arrivalTime := some 13 }]
          [⟨"A", DelayType.START_POSTPONEMENT, Phase.FABRICATION, ((2 : ℤ) : ℚ), 0, none⟩,
           ⟨"A", DelayType.START_POSTPONEMENT, Phase.FABRICATION, ((3 : ℤ) : ℚ), 0, none⟩]).find?
            (fun row => row.moduleId == "A") = some r2
      ∧ phaseEarliest r2 Phase.FABRICATION = some ((5 + max 2 3 : ℤ) : ℚ)
      ∧ phaseStart r2 Phase.FABRICATION = some ((5 : ℤ) : ℚ) :=
  (startPostponement_max_lower_bound
    [{ moduleId := "A", moduleIndex := 1, productionStart := some 5,
       productionDuration := 4, transportStart := some 11, transportDuration := 2,
       installationStart := some 14, installationDuration := 3,
       arrivalTime := some 13 }]
    "A" Phase.FABRICATION 5 2 3 0 0 none none
    { moduleId := "A", moduleIndex := 1, productionStart := some 5,
      productionDuration := 4, transportStart := some 11, transportDuration := 2,
      installationStart := some 14, installationDuration := 3,
      arrivalTime := some 13 }
    (by decide) (by norm_num [phaseStart]) (by decide)).1

/-- C5: applying two DURATION_EXTENSION delays of h1 and h2 hours to the same
module-phase via `DelayApplier.apply_delays` increases that phase's duration
in the working copy by exactly `h1 + h2` over its prior value.  The embedded
`_apply_duration_extension` takes no task-state input (the source consults
task states only for a debug print), so the update is the same regardless of
the task's state at application time. -/
theorem durationExtension_additivity
    (df : List Row) (mid : String) (ph : Phase) (h1 h2 : ℚ)
    (t1 t2 : ℤ) (rsn1 rsn2 : Option String) (r : Row)
    (hfind : df.find? (fun row => row.moduleId == mid) = some r) :
    ∃ r2,
      (applyDelays df
          [⟨mid, DelayType.DURATION_EXTENSION, ph, h1, t1, rsn1⟩,
           ⟨mid, DelayType.DURATION_EXTENSION, ph, h2, t2, rsn2⟩]).find?
            (fun row => row.moduleId == mid) = some r2
      ∧ phaseDuration r2 ph = phaseDuration r ph + (h1 + h2) := by
  have e : applyDelays df
      [⟨mid, DelayType.DURATION_EXTENSION, ph, h1, t1, rsn1⟩,
       ⟨mid, DelayType.DURATION_EXTENSION, ph, h2, t2, rsn2⟩]
      = updateFirstRow (updateFirstRow df mid
          (fun row => applyDurationExtension row ph h1)) mid
          (fun row => applyDurationExtension row ph h2) := rfl
  refine ⟨applyDurationExtension (applyDurationExtension r ph h1) ph h2, ?_, ?_⟩
  · rw [e, find?_updateFirstRow _ _ _ (fun rr => applyDurationExtension_moduleId rr ph h2),
        find?_updateFirstRow _ _ _ (fun rr => applyDurationExtension_moduleId rr ph h1),
        hfind]
    rfl
  · rw [applyDurationExtension_phaseDuration, applyDurationExtension_phaseDuration, add_assoc]

/-- Witness for C5 at a concrete input: installation duration 3, extensions of
2 and 7 hours give 3 + (2 + 7) = 12. -/
theorem durationExtension_additivity_witness :
    ∃ r2,
      (applyDelays
          [{ moduleId := "B", moduleIndex := 2, productionStart := some 1,
             productionDuration := 4, transportStart := some 6, transportDuration := 2,
             installationStart := some 9, installationDuration := 3,
             arrivalTime := some 8 }]
          [⟨"B", DelayType.DURATION_EXTENSION, Phase.INSTALLATION, 2, 0, none⟩,
           ⟨"B", DelayType.DURATION_EXTENSION, Phase.INSTALLATION, 7, 0, none⟩]).find?
            (fun row => row.moduleId == "B") = some r2
      ∧ phaseDuration r2 Phase.INSTALLATION =
          phaseDuration
            { moduleId := "B", moduleIndex := 2, productionStart := some 1,
              productionDuration := 4, transportStart := some 6, transportDuration := 2,
              installationStart := some 9, installationDuration := 3,
              arrivalTime := some 8 } Phase.INSTALLATION + (2 + 7) :=
  durationExtension_additivity
    [{ moduleId := "B", moduleIndex := 2, productionStart := some 1,
       productionDuration := 4, transportStart := some 6, transportDuration := 2,
       installationStart := some 9, installationDuration := 3,
       arrivalTime := some 8 }]
    "B" Phase.INSTALLATION 2 7 0 0 none none
    { moduleId := "B", moduleIndex := 2, productionStart := some 1,
      productionDuration := 4, transportStart := some 6, transportDuration := 2,
      installationStart := some 9, installationDuration := 3,
      arrivalTime := some 8 }
    (by decide)

/-! ## TaskStateIdentifier (rescheduler.py lines 41-236)

Datetimes are modelled as rationals measured in hours.
`working_calendar_slots` becomes `List (Option ℚ)`: slot 0 is the `None`
placeholder, slot `i` (for `1 ≤ i < length`) the datetime of time index `i`. -/

/-- `_index_to_datetime`: time index `idx` maps to `slots[idx]` when
`1 <= idx < len(slots)`.  The `idx.den = 1` clause states that the index is a
whole number, which is what a valid Python list subscript requires; indices
read from a prior solution are whole numbers. -/
def indexToDatetime (slots : List (Option ℚ)) (idx : ℚ) : Option ℚ :=
  if 1 ≤ idx ∧ idx < (slots.length : ℚ) ∧ idx.den = 1 then
    slots.getD idx.num.toNat none
  else none

/-- `TaskStateIdentifier._identify_phase_state`: classify one (module, phase)
against the reference datetime.  `currentDatetime = none` is the
calendar-resolution-failure case.  The `finishDt` binding keeps the source's
truthiness test `if finish_idx` (a finish index of 0 or NaN resolves to no
datetime), and a datetime value is always truthy, so `if finish_dt and ...`
becomes a match on the option. -/
def identifyPhaseState (slots : List (Option ℚ)) (currentDatetime : Option ℚ)
    (moduleId : String) (moduleIndex : ℤ) (phase : Phase)
    (startIdx finishIdx : Option ℚ) : TaskState :=
  let startDt := startIdx.bind (indexToDatetime slots)
  let finishDt := if pyTruthyQ finishIdx then finishIdx.bind (indexToDatetime slots) else none
  let mkState : Status → ℚ → Option ℚ → TaskState := fun status progress actualStart =>
    { moduleId := moduleId, moduleIndex := moduleIndex, phase := phase,
      status := status, startTime := startIdx, finishTime := finishIdx,
      progress := progress, actualStartTime := actualStart }
  match currentDatetime with
  | none =>
    -- current_datetime unavailable: treat all as not started
    mkState Status.NOT_STARTED 0 none
  | some cd =>
    let elifElse : TaskState :=
      match startDt with
      | some sd =>
        if sd ≤ cd then
          let progress : ℚ :=
            match finishDt with
            | some fd =>
              let totalDuration := fd - sd
              let elapsed := cd - sd
              if 0 < totalDuration then min 1 (max 0 (elapsed / totalDuration)) else 0
            | none => 1 / 2
          mkState Status.IN_PROGRESS progress startIdx
        else mkState Status.NOT_STARTED 0 none
      | none => mkState Status.NOT_STARTED 0 none
    match finishDt with
    | some fd => if fd < cd then mkState Status.COMPLETED 1 none else elifElse
    | none => elifElse

/-- Per-row body of `TaskStateIdentifier.identify_all_states`: derive the
three phase timing windows from the row's columns and classify each phase. -/
def identifyRowStates (slots : List (Option ℚ)) (currentDatetime : Option ℚ)
    (row : Row) : List TaskState :=
  let fabStart := row.productionStart
  let fabFinish := if pyTruthyQ fabStart
    then fabStart.map (fun s => s + row.productionDuration - 1) else none
  let transportStart := row.transportStart
  let transportFinish :=
    match row.arrivalTime with
    | some a => some a
    | none => transportStart.map (fun s => s + row.transportDuration)
  let installStart := row.installationStart
  let installFinish := if pyTruthyQ installStart
    then installStart.map (fun s => s + row.installationDuration - 1) else none
  [identifyPhaseState slots currentDatetime row.moduleId row.moduleIndex
      Phase.FABRICATION fabStart fabFinish,
   identifyPhaseState slots currentDatetime row.moduleId row.moduleIndex
      Phase.TRANSPORT transportStart transportFinish,
   identifyPhaseState slots currentDatetime row.moduleId row.moduleIndex
      Phase.INSTALLATION installStart installFinish]

/-- `TaskStateIdentifier.identify_all_states`: one entry per solution row
(the source keys the result dict by module id; a list of pairs keeps the
same associations). -/
def identifyAllStates (slots : List (Option ℚ)) (currentDatetime : Option ℚ)
    (df : List Row) : List (String × List TaskState) :=
  df.map (fun row => (row.moduleId, identifyRowStates slots currentDatetime row))

/-- C6: with a resolvable reference datetime and resolvable start/finish
indices, `_identify_phase_state` classifies COMPLETED (progress 1, no actual
start) exactly when the planned finish precedes the reference time; otherwise
IN_PROGRESS when the planned start is at or before the reference time, with
the planned start recorded as the actual observed start and progress equal to
elapsed time over the planned (wall-clock) duration clamped to [0,1];
otherwise NOT_STARTED with progress 0. -/
theorem identifyPhaseState_classification
    (slots : List (Option ℚ)) (cd : ℚ) (mid : String) (midx : ℤ) (ph : Phase)
    (si fi sd fd : ℚ) (st : TaskState)
    (hsd : indexToDatetime slots si = some sd)
    (hfi : fi ≠ 0)
    (hfd : indexToDatetime slots fi = some fd)
    (hst : st = identifyPhaseState slots (some cd) mid midx ph (some si) (some fi)) :
    (st.status = Status.COMPLETED ↔ fd < cd)
    ∧ (fd < cd → st.progress = 1 ∧ st.actualStartTime = none)
    ∧ (¬ fd < cd → sd ≤ cd →
        st.status = Status.IN_PROGRESS ∧ st.actualStartTime = some si
        ∧ st.progress = min 1 (max 0 ((cd - sd) / (fd - sd))))
    ∧ (¬ fd < cd → ¬ sd ≤ cd → st.status = Status.NOT_STARTED ∧ st.progress = 0) := by
  subst hst
  have hft : pyTruthyQ (some fi) = true := by simp [pyTruthyQ, hfi]
  simp only [identifyPhaseState, hft, if_true, Option.some_bind, hsd, hfd]
  by_cases hc1 : fd < cd
  · simp [hc1]
  · by_cases hc2 : sd ≤ cd
    · simp only [if_neg hc1, hc2, if_true]
      refine ⟨by simp [hc1], by simp [hc1], fun _ _ => ⟨by simp, by simp, ?_⟩, by simp [hc2]⟩
      by_cases h0 : 0 < fd - sd
      · simp [h0]
      · have hq : (cd - sd) / (fd - sd) ≤ 0 :=
          div_nonpos_iff.mpr (Or.inl ⟨sub_nonneg.mpr hc2, not_lt.mp h0⟩)
        simp only [if_neg h0]
        rw [max_eq_left hq, min_eq_right zero_le_one]
    · simp [hc1, hc2]

/-- Witness for C6: calendar slots at hours 0..4, phase planned over indices
1..3 (datetimes 0..2), reference datetime 1: the phase is classified
IN_PROGRESS with the planned start recorded and the clamped progress ratio. -/
theorem identifyPhaseState_classification_witness :
    (identifyPhaseState [none, some 0, some 1, some 2, some 3, some 4] (some 1) "A" 1
        Phase.FABRICATION (some 1) (some 3)).status = Status.IN_PROGRESS
    ∧ (identifyPhaseState [none, some 0, some 1, some 2, some 3, some 4] (some 1) "A" 1
        Phase.FABRICATION (some 1) (some 3)).actualStartTime = some 1
    ∧ (identifyPhaseState [none, some 0, some 1, some 2, some 3, some 4] (some 1) "A" 1
        Phase.FABRICATION (some 1) (some 3)).progress = min 1 (max 0 ((1 - 0) / (2 - 0))) :=
  (identifyPhaseState_classification [none, some 0, some 1, some 2, some 3, some 4] 1 "A" 1
      Phase.FABRICATION 1 3 0 2 _ (by decide) (by decide) (by decide) rfl).2.2.1
    (by norm_num) (by norm_num)

/-- C9: when the reference time cannot be resolved to a datetime
(current_datetime is None, the calendar-resolution-failure case), every
(module, phase) of every module in the prior solution is classified
NOT_STARTED with progress 0.0. -/
theorem calendar_failure_all_not_started
    (slots : List (Option ℚ)) (df : List Row)
    (entry : String × List TaskState) (st : TaskState)
    (hentry : entry ∈ identifyAllStates slots none df)
    (hst : st ∈ entry.2) :
    st.status = Status.NOT_STARTED ∧ st.progress = 0 := by
  simp only [identifyAllStates, List.mem_map] at hentry
  obtain ⟨row, hrow, rfl⟩ := hentry
  simp only [identifyRowStates, List.mem_cons, List.not_mem_nil, or_false] at hst
  rcases hst with rfl | rfl | rfl <;> simp [identifyPhaseState]

/-- Witness for C9 at a concrete input: with no calendar slots the transport
phase of the single module is NOT_STARTED with progress 0. -/
theorem calendar_failure_all_not_started_witness :
    (identifyPhaseState [] none "A" 1 Phase.TRANSPORT (some 6) (some 8)).status
        = Status.NOT_STARTED
    ∧ (identifyPhaseState [] none "A" 1 Phase.TRANSPORT (some 6) (some 8)).progress = 0 :=
  calendar_failure_all_not_started [] 
    [{ moduleId := "A", moduleIndex := 1, productionStart := some 1,
       productionDuration := 4, transportStart := some 6, transportDuration := 2,
       installationStart := some 9, installationDuration := 3, arrivalTime := some 8 }]
    (("A" : String), identifyRowStates [] none
      { moduleId := "A", moduleIndex := 1, productionStart := some 1,
        productionDuration := 4, transportStart := some 6, transportDuration := 2,
        installationStart := some 9, installationDuration := 3, arrivalTime := some 8 })
    (identifyPhaseState [] none "A" 1 Phase.TRANSPORT (some 6) (some 8))
    (List.Mem.head _) (List.Mem.tail _ (List.Mem.head _))

/-! ## FixedConstraintsBuilder (rescheduler.py lines 375-652)

The seven output dictionaries of `build_fixed_constraints` become functions
from module index; `none` models "key not in dict". -/

/-- Output of `FixedConstraintsBuilder.build_fixed_constraints`. -/
structure FixedConstraints where
  fixedInstallationStarts : ℤ → Option ℚ
  fixedProductionStarts : ℤ → Option ℚ
  fixedArrivalTimes : ℤ → Option ℚ
  fixedDurations : ℤ → Phase → Option ℚ
  earliestProductionStarts : ℤ → Option ℤ
  earliestTransportStarts : ℤ → Option ℤ
  earliestInstallationStarts : ℤ → Option ℤ

/-- The seven dictionaries start out empty. -/
def emptyFixedConstraints : FixedConstraints where
  fixedInstallationStarts := fun _ => none
  fixedProductionStarts := fun _ => none
  fixedArrivalTimes := fun _ => none
  fixedDurations := fun _ _ => none
  earliestProductionStarts := fun _ => none
  earliestTransportStarts := fun _ => none
  earliestInstallationStarts := fun _ => none

/-- Dict update `m[k] = v`. -/
def updMapQ (m : ℤ → Option ℚ) (k : ℤ) (v : ℚ) : ℤ → Option ℚ :=
  fun j => if j = k then some v else m j

/-- Dict update `m[k] = v` for integer values. -/
def updMapZ (m : ℤ → Option ℤ) (k : ℤ) (v : ℤ) : ℤ → Option ℤ :=
  fun j => if j = k then some v else m j

/-- `dict.setdefault(k, {})[phase] = v`: set the phase slot of module `k`,
leaving every other module and phase slot unchanged. -/
def updDur (m : ℤ → Phase → Option ℚ) (k : ℤ) (ph : Phase) (v : ℚ) :
    ℤ → Phase → Option ℚ :=
  fun j p => if j = k ∧ p = ph then some v else m j p

/-- `if value: m[k] = value` on an optional number (Python truthiness). -/
def setIfTruthy (m : ℤ → Option ℚ) (k : ℤ) (v : Option ℚ) : ℤ → Option ℚ :=
  match v with
  | some x => if x ≠ 0 then updMapQ m k x else m
  | none => m

/-- `elapsed = max(0, current_time - actual_start) if actual_start else 0`. -/
def elapsedFrom (currentTime : ℤ) (actualStart : Option ℚ) : ℚ :=
  match actualStart with
  | some a => if a ≠ 0 then max 0 ((currentTime : ℚ) - a) else 0
  | none => 0

/-- `FixedConstraintsBuilder._handle_fabrication_phase`. -/
def handleFabricationPhase (state : TaskState) (moduleIndex : ℤ)
    (row originalRow : Row) (currentTime : ℤ) (fc : FixedConstraints) :
    FixedConstraints :=
  match state.status with
  | Status.COMPLETED =>
    -- fix start time; duration = original (pre-delay) duration
    let fc1 := { fc with
      fixedProductionStarts := setIfTruthy fc.fixedProductionStarts moduleIndex state.startTime }
    { fc1 with
      fixedDurations := updDur fc1.fixedDurations moduleIndex Phase.FABRICATION originalRow.productionDuration }
  | Status.IN_PROGRESS =>
    -- fix start time; duration = remaining duration
    let actualStart := if pyTruthyQ state.actualStartTime
      then state.actualStartTime else state.startTime
    let fc1 := { fc with
      fixedProductionStarts := setIfTruthy fc.fixedProductionStarts moduleIndex actualStart }
    let totalDuration := row.productionDuration
    let elapsed := elapsedFrom currentTime actualStart
    let remainingDuration := max 0 (totalDuration - elapsed)
    { fc1 with
      fixedDurations := updDur fc1.fixedDurations moduleIndex Phase.FABRICATION remainingDuration }
  | Status.NOT_STARTED =>
    -- no fixed start; duration = delay-adjusted total duration
    { fc with
      fixedDurations := updDur fc.fixedDurations moduleIndex Phase.FABRICATION row.productionDuration }

/-- `FixedConstraintsBuilder._handle_transport_phase`. -/
def handleTransportPhase (state : TaskState) (moduleIndex : ℤ)
    (row originalRow : Row) (currentTime : ℤ) (fc : FixedConstraints) :
    FixedConstraints :=
  match state.status with
  | Status.COMPLETED =>
    -- fix arrival time (falling back to the state's planned finish)
    let arrival := match row.arrivalTime with
      | some a => some a
      | none => if pyTruthyQ state.finishTime then state.finishTime else none
    let fc1 := { fc with
      fixedArrivalTimes := setIfTruthy fc.fixedArrivalTimes moduleIndex arrival }
    { fc1 with
      fixedDurations := updDur fc1.fixedDurations moduleIndex Phase.TRANSPORT originalRow.transportDuration }
  | Status.IN_PROGRESS =>
    -- transport start is not fixed directly; only the remaining duration is recorded
    let actualStart := if pyTruthyQ state.actualStartTime
      then state.actualStartTime else state.startTime
    let totalDuration := row.transportDuration
    let elapsed := elapsedFrom currentTime actualStart
    let remainingDuration := max 0 (totalDuration - elapsed)
    { fc with
      fixedDurations := updDur fc.fixedDurations moduleIndex Phase.TRANSPORT remainingDuration }
  | Status.NOT_STARTED =>
    { fc with
      fixedDurations := updDur fc.fixedDurations moduleIndex Phase.TRANSPORT row.transportDuration }

/-- `FixedConstraintsBuilder._handle_installation_phase`. -/
def handleInstallationPhase (state : TaskState) (moduleIndex : ℤ)
    (row originalRow : Row) (currentTime : ℤ) (fc : FixedConstraints) :
    FixedConstraints :=
  match state.status with
  | Status.COMPLETED =>
    let fc1 := { fc with
      fixedInstallationStarts := setIfTruthy fc.fixedInstallationStarts moduleIndex state.startTime }
    { fc1 with
      fixedDurations := updDur fc1.fixedDurations moduleIndex Phase.INSTALLATION originalRow.installationDuration }
  | Status.IN_PROGRESS =>
    let actualStart := if pyTruthyQ state.actualStartTime
      then state.actualStartTime else state.startTime
    let fc1 := { fc with
      fixedInstallationStarts := setIfTruthy fc.fixedInstallationStarts moduleIndex actualStart }
    let totalDuration := row.installationDuration
    let elapsed := elapsedFrom currentTime actualStart
    let remainingDuration := max 0 (totalDuration - elapsed)
    { fc1 with
      fixedDurations := updDur fc1.fixedDurations moduleIndex Phase.INSTALLATION remainingDuration }
  | Status.NOT_STARTED =>
    { fc with
      fixedDurations := updDur fc.fixedDurations moduleIndex Phase.INSTALLATION row.installationDuration }

/-- The `Earliest_*` extraction of `build_fixed_constraints`: the column holds
a numeric time index (the int/float isinstance branch of the source; the
`Earliest_*` columns written by `DelayApplier` are numeric), converted with
`int(...)` and kept only when strictly positive. -/
def extractEarliestLb (m : ℤ → Option ℤ) (moduleIndex : ℤ) (value : Option ℚ) :
    ℤ → Option ℤ :=
  match value with
  | some v =>
    let idx := pyInt v
    if 0 < idx then updMapZ m moduleIndex idx else m
  | none => m

/-- One iteration of the per-state loop of `build_fixed_constraints`:
dispatch on the phase, then extract the phase's earliest-start lower bound
for NOT_STARTED tasks whose module is not in the corresponding fixed map. -/
def processState (currentTime : ℤ) (moduleIndex : ℤ) (row originalRow : Row)
    (fc : FixedConstraints) (state : TaskState) : FixedConstraints :=
  match state.phase with
  | Phase.FABRICATION =>
    let fc1 := handleFabricationPhase state moduleIndex row originalRow currentTime fc
    if state.status = Status.NOT_STARTED ∧ fc1.fixedProductionStarts moduleIndex = none then
      { fc1 with
      earliestProductionStarts :=  extractEarliestLb fc1.earliestProductionStarts moduleIndex row.earliestProductionStart }
    else fc1
  | Phase.TRANSPORT =>
    let fc1 := handleTransportPhase state moduleIndex row originalRow currentTime fc
    if state.status = Status.NOT_STARTED ∧ fc1.fixedArrivalTimes moduleIndex = none then
      { fc1 with
      earliestTransportStarts :=  extractEarliestLb fc1.earliestTransportStarts moduleIndex row.earliestTransportStart }
    else fc1
  | Phase.INSTALLATION =>
    let fc1 := handleInstallationPhase state moduleIndex row originalRow currentTime fc
    if state.status = Status.NOT_STARTED ∧ fc1.fixedInstallationStarts moduleIndex = none then
      { fc1 with
      earliestInstallationStarts :=  extractEarliestLb fc1.earliestInstallationStarts moduleIndex row.earliestInstallationStart }
    else fc1

/-- The `_module_id_to_index` dict comprehension keeps the value of the last
row carrying a given module id. -/
def moduleIndexOf (df : List Row) (mid : String) : Option ℤ :=
  (df.reverse.find? (fun r => r.moduleId == mid)).map Row.moduleIndex

/-- Per-module body of the main loop of `build_fixed_constraints`: skip
modules without an index or a solution row; pick the first matching solution
row and the first matching original row (falling back to the solution row),
then fold the module's task states. -/
def processModule (currentTime : ℤ) (df originalDf : List Row)
    (fc : FixedConstraints) (entry : String × List TaskState) : FixedConstraints :=
  match moduleIndexOf df entry.1 with
  | none => fc
  | some moduleIndex =>
    match df.find? (fun r => r.moduleId == entry.1) with
    | none => fc
    | some row =>
      let originalRow := (originalDf.find? (fun r => r.moduleId == entry.1)).getD row
      entry.2.foldl (processState currentTime moduleIndex row originalRow) fc

/-- `FixedConstraintsBuilder.build_fixed_constraints`: fold the task-state
entries over the empty constraint set. -/
def buildFixedConstraints (taskStates : List (String × List TaskState))
    (currentTime : ℤ) (df originalDf : List Row) : FixedConstraints :=
  taskStates.foldl (processModule currentTime df originalDf) emptyFixedConstraints

/-- C2: for an IN_PROGRESS task state whose actual/observed start (defaulting
to the planned start) resolves to a nonzero value `a`, both the fabrication
and the installation handlers fix the exact start at `a` and emit the
remaining duration `max 0 (delay-adjusted total - max 0 (current_time - a))`,
never the full extended duration unless nothing has elapsed. -/
theorem in_progress_fixed_start_and_remaining_duration
    (state : TaskState) (moduleIndex : ℤ) (row originalRow : Row)
    (currentTime : ℤ) (fc : FixedConstraints) (a : ℚ)
    (hs : state.status = Status.IN_PROGRESS)
    (ha : (if pyTruthyQ state.actualStartTime then state.actualStartTime
            else state.startTime) = some a)
    (ha0 : a ≠ 0) :
    ((handleFabricationPhase state moduleIndex row originalRow currentTime
        fc).fixedProductionStarts moduleIndex = some a
      ∧ (handleFabricationPhase state moduleIndex row originalRow currentTime
          fc).fixedDurations moduleIndex Phase.FABRICATION
        = some (max 0 (row.productionDuration - max 0 ((currentTime : ℚ) - a))))
    ∧ ((handleInstallationPhase state moduleIndex row originalRow currentTime
        fc).fixedInstallationStarts moduleIndex = some a
      ∧ (handleInstallationPhase state moduleIndex row originalRow currentTime
          fc).fixedDurations moduleIndex Phase.INSTALLATION
        = some (max 0 (row.installationDuration - max 0 ((currentTime : ℚ) - a)))) := by
  refine ⟨⟨?_, ?_⟩, ?_, ?_⟩ <;>
    simp only [handleFabricationPhase, handleInstallationPhase, hs, ha, setIfTruthy,
      elapsedFrom, if_pos ha0, ha0, updMapQ, updDur, if_true] <;>
    simp

/-- Witness for C2 at a concrete input: planned and actual start 3, current
time 7, delay-adjusted durations 10 (fabrication) and 6 (installation). -/
theorem in_progress_fixed_start_and_remaining_duration_witness :
    ((handleFabricationPhase
        { moduleId := "A", moduleIndex := 1, phase := Phase.FABRICATION,
          status := Status.IN_PROGRESS, startTime := some 3, finishTime := some 12,
          progress := 0, actualStartTime := some 3 } 1
        { moduleId := "A", moduleIndex := 1, productionStart := some 3,
          productionDuration := 10, transportStart := some 13, transportDuration := 2,
          installationStart := some 16, installationDuration := 6, arrivalTime := some 15 }
        { moduleId := "A", moduleIndex := 1, productionStart := some 3,
          productionDuration := 7, transportStart := some 13, transportDuration := 2,
          installationStart := some 16, installationDuration := 6, arrivalTime := some 15 }
        7 emptyFixedConstraints).fixedProductionStarts 1 = some 3
      ∧ (handleFabricationPhase
        { moduleId := "A", moduleIndex := 1, phase := Phase.FABRICATION,
          status := Status.IN_PROGRESS, startTime := some 3, finishTime := some 12,
          progress := 0, actualStartTime := some 3 } 1
        { moduleId := "A", moduleIndex := 1, productionStart := some 3,
          productionDuration := 10, transportStart := some 13, transportDuration := 2,
          installationStart := some 16, installationDuration := 6, arrivalTime := some 15 }
        { moduleId := "A", moduleIndex := 1, productionStart := some 3,
          productionDuration := 7, transportStart := some 13, transportDuration := 2,
          installationStart := some 16, installationDuration := 6, arrivalTime := some 15 }
        7 emptyFixedConstraints).fixedDurations 1 Phase.FABRICATION
        = some (max 0 (10 - max 0 (((7 : ℤ) : ℚ) - 3))))
    ∧ ((handleInstallationPhase
        { moduleId := "A", moduleIndex := 1, phase := Phase.FABRICATION,
          status := Status.IN_PROGRESS, startTime := some 3, finishTime := some 12,
          progress := 0, actualStartTime := some 3 } 1
        { moduleId := "A", moduleIndex := 1, productionStart := some 3,
          productionDuration := 10, transportStart := some 13, transportDuration := 2,
          installationStart := some 16, installationDuration := 6, arrivalTime := some 15 }
        { moduleId := "A", moduleIndex := 1, productionStart := some 3,
          productionDuration := 7, transportStart := some 13, transportDuration := 2,
          installationStart := some 16, installationDuration := 6, arrivalTime := some 15 }
        7 emptyFixedConstraints).fixedInstallationStarts 1 = some 3
      ∧ (handleInstallationPhase
        { moduleId := "A", moduleIndex := 1, phase := Phase.FABRICATION,
          status := Status.IN_PROGRESS, startTime := some 3, finishTime := some 12,
          progress := 0, actualStartTime := some 3 } 1
        { moduleId := "A", moduleIndex := 1, productionStart := some 3,
          productionDuration := 10, transportStart := some 13, transportDuration := 2,
          installationStart := some 16, installationDuration := 6, arrivalTime := some 15 }
        { moduleId := "A", moduleIndex := 1, productionStart := some 3,
          productionDuration := 7, transportStart := some 13, transportDuration := 2,
          installationStart := some 16, installationDuration := 6, arrivalTime := some 15 }
        7 emptyFixedConstraints).fixedDurations 1 Phase.INSTALLATION
        = some (max 0 (6 - max 0 (((7 : ℤ) : ℚ) - 3)))) :=
  in_progress_fixed_start_and_remaining_duration
    { moduleId := "A", moduleIndex := 1, phase := Phase.FABRICATION,
      status := Status.IN_PROGRESS, startTime := some 3, finishTime := some 12,
      progress := 0, actualStartTime := some 3 } 1
    { moduleId := "A", moduleIndex := 1, productionStart := some 3,
      productionDuration := 10, transportStart := some 13, transportDuration := 2,
      installationStart := some 16, installationDuration := 6, arrivalTime := some 15 }
    { moduleId := "A", moduleIndex := 1, productionStart := some 3,
      productionDuration := 7, transportStart := some 13, transportDuration := 2,
      installationStart := some 16, installationDuration := 6, arrivalTime := some 15 }
    7 emptyFixedConstraints 3 rfl (by decide) (by decide)

/-- C3: for a COMPLETED task state, each phase handler emits the duration of
the original (pre-delay-application) solution row, regardless of the
delay-adjusted duration carried by the working row. -/
theorem completed_duration_from_original
    (state : TaskState) (moduleIndex : ℤ) (row originalRow : Row)
    (currentTime : ℤ) (fc : FixedConstraints)
    (hs : state.status = Status.COMPLETED) :
    (handleFabricationPhase state moduleIndex row originalRow currentTime
        fc).fixedDurations moduleIndex Phase.FABRICATION
      = some originalRow.productionDuration
    ∧ (handleTransportPhase state moduleIndex row originalRow currentTime
          fc).fixedDurations moduleIndex Phase.TRANSPORT
      = some originalRow.transportDuration
    ∧ (handleInstallationPhase state moduleIndex row originalRow currentTime
          fc).fixedDurations moduleIndex Phase.INSTALLATION
      = some originalRow.installationDuration := by
  refine ⟨?_, ?_, ?_⟩ <;>
    simp [handleFabricationPhase, handleTransportPhase, handleInstallationPhase, hs, updDur]

/-- Witness for C3 at a concrete input: working row carries an extended
fabrication duration 9, the original row 4; the emitted duration is 4. -/
theorem completed_duration_from_original_witness :
    (handleFabricationPhase
        { moduleId := "A", moduleIndex := 1, phase := Phase.FABRICATION,
          status := Status.COMPLETED, startTime := some 2, finishTime := some 5,
          progress := 1, actualStartTime := none } 1
        { moduleId := "A", moduleIndex := 1, productionStart := some 2,
          productionDuration := 9, transportStart := some 6, transportDuration := 3,
          installationStart := some 10, installationDuration := 5, arrivalTime := some 9 }
        { moduleId := "A", moduleIndex := 1, productionStart := some 2,
          productionDuration := 4, transportStart := some 6, transportDuration := 2,
          installationStart := some 10, installationDuration := 3, arrivalTime := some 9 }
        11 emptyFixedConstraints).fixedDurations 1 Phase.FABRICATION = some 4
    ∧ (handleTransportPhase
        { moduleId := "A", moduleIndex := 1, phase := Phase.FABRICATION,
          status := Status.COMPLETED, startTime := some 2, finishTime := some 5,
          progress := 1, actualStartTime := none } 1
        { moduleId := "A", moduleIndex := 1, productionStart := some 2,
          productionDuration := 9, transportStart := some 6, transportDuration := 3,
          installationStart := some 10, installationDuration := 5, arrivalTime := some 9 }
        { moduleId := "A", moduleIndex := 1, productionStart := some 2,
          productionDuration := 4, transportStart := some 6, transportDuration := 2,
          installationStart := some 10, installationDuration := 3, arrivalTime := some 9 }
        11 emptyFixedConstraints).fixedDurations 1 Phase.TRANSPORT = some 2
    ∧ (handleInstallationPhase
        { moduleId := "A", moduleIndex := 1, phase := Phase.FABRICATION,
          status := Status.COMPLETED, startTime := some 2, finishTime := some 5,
          progress := 1, actualStartTime := none } 1
        { moduleId := "A", moduleIndex := 1, productionStart := some 2,
          productionDuration := 9, transportStart := some 6, transportDuration := 3,
          installationStart := some 10, installationDuration := 5, arrivalTime := some 9 }
        { moduleId := "A", moduleIndex := 1, productionStart := some 2,
          productionDuration := 4, transportStart := some 6, transportDuration := 2,
          installationStart := some 10, installationDuration := 3, arrivalTime := some 9 }
        11 emptyFixedConstraints).fixedDurations 1 Phase.INSTALLATION = some 3 :=
  completed_duration_from_original
    { moduleId := "A", moduleIndex := 1, phase := Phase.FABRICATION,
      status := Status.COMPLETED, startTime := some 2, finishTime := some 5,
      progress := 1, actualStartTime := none } 1
    { moduleId := "A", moduleIndex := 1, productionStart := some 2,
      productionDuration := 9, transportStart := some 6, transportDuration := 3,
      installationStart := some 10, installationDuration := 5, arrivalTime := some 9 }
    { moduleId := "A", moduleIndex := 1, productionStart := some 2,
      productionDuration := 4, transportStart := some 6, transportDuration := 2,
      installationStart := some 10, installationDuration := 3, arrivalTime := some 9 }
    11 emptyFixedConstraints rfl

/-! ### Lemmas for the exclusivity invariant of `build_fixed_constraints` -/

theorem setIfTruthy_apply_ne (m : ℤ → Option ℚ) (k : ℤ) (v : Option ℚ) (j : ℤ)
    (hj : j ≠ k) : setIfTruthy m k v j = m j := by
  cases v with
  | none => rfl
  | some x =>
    simp only [setIfTruthy]
    split
    · simp [updMapQ, hj]
    · rfl

theorem extractEarliestLb_apply_ne (m : ℤ → Option ℤ) (k : ℤ) (v : Option ℚ) (j : ℤ)
    (hj : j ≠ k) : extractEarliestLb m k v j = m j := by
  cases v with
  | none => rfl
  | some x =>
    simp only [extractEarliestLb]
    split
    · simp [updMapZ, hj]
    · rfl

/-- Effects of processing a FABRICATION state: the transport and installation
maps are untouched; the production maps change at most at the module's own
index; and from a fresh index (no fixed production start, no production lower
bound) the result never carries both. -/
theorem processState_fab_effects (cur k : ℤ) (row orow : Row)
    (fc : FixedConstraints) (st : TaskState) (hph : st.phase = Phase.FABRICATION) :
    (processState cur k row orow fc st).fixedArrivalTimes = fc.fixedArrivalTimes
    ∧ (processState cur k row orow fc st).earliestTransportStarts = fc.earliestTransportStarts
    ∧ (processState cur k row orow fc st).fixedInstallationStarts = fc.fixedInstallationStarts
    ∧ (processState cur k row orow fc st).earliestInstallationStarts = fc.earliestInstallationStarts
    ∧ (∀ j, j ≠ k →
        (processState cur k row orow fc st).fixedProductionStarts j = fc.fixedProductionStarts j)
    ∧ (∀ j, j ≠ k →
        (processState cur k row orow fc st).earliestProductionStarts j
          = fc.earliestProductionStarts j)
    ∧ (fc.fixedProductionStarts k = none → fc.earliestProductionStarts k = none →
        ¬((processState cur k row orow fc st).fixedProductionStarts k ≠ none
          ∧ (processState cur k row orow fc st).earliestProductionStarts k ≠ none)) := by
  obtain ⟨smid, smidx, sph, sst, sstart, sfin, sprog, sact⟩ := st
  simp only [TaskState.phase] at hph
  subst hph
  cases sst
  case COMPLETED =>
    simp only [processState, handleFabricationPhase]
    rw [if_neg (by simp)]
    exact ⟨rfl, rfl, rfl, rfl,
      fun j hj => setIfTruthy_apply_ne _ _ _ _ hj,
      fun _ _ => rfl,
      fun _ he h => h.2 he⟩
  case IN_PROGRESS =>
    simp only [processState, handleFabricationPhase]
    rw [if_neg (by simp)]
    exact ⟨rfl, rfl, rfl, rfl,
      fun j hj => setIfTruthy_apply_ne _ _ _ _ hj,
      fun _ _ => rfl,
      fun _ he h => h.2 he⟩
  case NOT_STARTED =>
    simp only [processState, handleFabricationPhase]
    split_ifs with hcond
    · exact ⟨rfl, rfl, rfl, rfl, fun _ _ => rfl,
        fun j hj => extractEarliestLb_apply_ne _ _ _ _ hj,
        fun hf _ h => h.1 hf⟩
    · exact ⟨rfl, rfl, rfl, rfl, fun _ _ => rfl, fun _ _ => rfl,
        fun hf _ h => h.1 hf⟩

/-- Effects of processing a TRANSPORT state: the production and installation
maps are untouched; the arrival/transport maps change at most at the module's
own index; and from a fresh index the result never carries both a fixed
arrival and a transport lower bound. -/
theorem processState_trans_effects (cur k : ℤ) (row orow : Row)
    (fc : FixedConstraints) (st : TaskState) (hph : st.phase = Phase.TRANSPORT) :
    (processState cur k row orow fc st).fixedProductionStarts = fc.fixedProductionStarts
    ∧ (processState cur k row orow fc st).earliestProductionStarts = fc.earliestProductionStarts
    ∧ (processState cur k row orow fc st).fixedInstallationStarts = fc.fixedInstallationStarts
    ∧ (processState cur k row orow fc st).earliestInstallationStarts = fc.earliestInstallationStarts
    ∧ (∀ j, j ≠ k →
        (processState cur k row orow fc st).fixedArrivalTimes j = fc.fixedArrivalTimes j)
    ∧ (∀ j, j ≠ k →
        (processState cur k row orow fc st).earliestTransportStarts j
          = fc.earliestTransportStarts j)
    ∧ (fc.fixedArrivalTimes k = none → fc.earliestTransportStarts k = none →
        ¬((processState cur k row orow fc st).fixedArrivalTimes k ≠ none
          ∧ (processState cur k row orow fc st).earliestTransportStarts k ≠ none)) := by
  obtain ⟨smid, smidx, sph, sst, sstart, sfin, sprog, sact⟩ := st
  simp only [TaskState.phase] at hph
  subst hph
  cases sst
  case COMPLETED =>
    simp only [processState, handleTransportPhase]
    rw [if_neg (by simp)]
    exact ⟨rfl, rfl, rfl, rfl,
      fun j hj => setIfTruthy_apply_ne _ _ _ _ hj,
      fun _ _ => rfl,
      fun _ he h => h.2 he⟩
  case IN_PROGRESS =>
    simp only [processState, handleTransportPhase]
    rw [if_neg (by simp)]
    exact ⟨rfl, rfl, rfl, rfl, fun _ _ => rfl, fun _ _ => rfl,
      fun _ he h => h.2 he⟩
  case NOT_STARTED =>
    simp only [processState, handleTransportPhase]
    split_ifs with hcond
    · exact ⟨rfl, rfl, rfl, rfl, fun _ _ => rfl,
        fun j hj => extractEarliestLb_apply_ne _ _ _ _ hj,
        fun hf _ h => h.1 hf⟩
    · exact ⟨rfl, rfl, rfl, rfl, fun _ _ => rfl, fun _ _ => rfl,
        fun hf _ h => h.1 hf⟩

/-- Effects of processing an INSTALLATION state: the production and
arrival/transport maps are untouched; the installation maps change at most at
the module's own index; and from a fresh index the result never carries both
a fixed installation start and an installation lower bound. -/
theorem processState_inst_effects (cur k : ℤ) (row orow : Row)
    (fc : FixedConstraints) (st : TaskState) (hph : st.phase = Phase.INSTALLATION) :
    (processState cur k row orow fc st).fixedProductionStarts = fc.fixedProductionStarts
    ∧ (processState cur k row orow fc st).earliestProductionStarts = fc.earliestProductionStarts
    ∧ (processState cur k row orow fc st).fixedArrivalTimes = fc.fixedArrivalTimes
    ∧ (processState cur k row orow fc st).earliestTransportStarts = fc.earliestTransportStarts
    ∧ (∀ j, j ≠ k →
        (processState cur k row orow fc st).fixedInstallationStarts j
          = fc.fixedInstallationStarts j)
    ∧ (∀ j, j ≠ k →
        (processState cur k row orow fc st).earliestInstallationStarts j
          = fc.earliestInstallationStarts j)
    ∧ (fc.fixedInstallationStarts k = none → fc.earliestInstallationStarts k = none →
        ¬((processState cur k row orow fc st).fixedInstallationStarts k ≠ none
          ∧ (processState cur k row orow fc st).earliestInstallationStarts k ≠ none)) := by
  obtain ⟨smid, smidx, sph, sst, sstart, sfin, sprog, sact⟩ := st
  simp only [TaskState.phase] at hph
  subst hph
  cases sst
  case COMPLETED =>
    simp only [processState, handleInstallationPhase]
    rw [if_neg (by simp)]
    exact ⟨rfl, rfl, rfl, rfl,
      fun j hj => setIfTruthy_apply_ne _ _ _ _ hj,
      fun _ _ => rfl,
      fun _ he h => h.2 he⟩
  case IN_PROGRESS =>
    simp only [processState, handleInstallationPhase]
    rw [if_neg (by simp)]
    exact ⟨rfl, rfl, rfl, rfl,
      fun j hj => setIfTruthy_apply_ne _ _ _ _ hj,
      fun _ _ => rfl,
      fun _ he h => h.2 he⟩
  case NOT_STARTED =>
    simp only [processState, handleInstallationPhase]
    split_ifs with hcond
    · exact ⟨rfl, rfl, rfl, rfl, fun _ _ => rfl,
        fun j hj => extractEarliestLb_apply_ne _ _ _ _ hj,
        fun hf _ h => h.1 hf⟩
    · exact ⟨rfl, rfl, rfl, rfl, fun _ _ => rfl, fun _ _ => rfl,
        fun hf _ h => h.1 hf⟩

/-- At module index `k`, no family carries both an exact fix and an
earliest-start lower bound. -/
def pairFreeAt (fc : FixedConstraints) (k : ℤ) : Prop :=
  ¬(fc.fixedProductionStarts k ≠ none ∧ fc.earliestProductionStarts k ≠ none)
  ∧ ¬(fc.fixedArrivalTimes k ≠ none ∧ fc.earliestTransportStarts k ≠ none)
  ∧ ¬(fc.fixedInstallationStarts k ≠ none ∧ fc.earliestInstallationStarts k ≠ none)

/-- All six start/lower-bound maps are empty at module index `i`. -/
def allNoneAt (fc : FixedConstraints) (i : ℤ) : Prop :=
  fc.fixedProductionStarts i = none ∧ fc.earliestProductionStarts i = none
  ∧ fc.fixedArrivalTimes i = none ∧ fc.earliestTransportStarts i = none
  ∧ fc.fixedInstallationStarts i = none ∧ fc.earliestInstallationStarts i = none

/-- A single state step never changes any of the six start/lower-bound maps
at a module index other than its own. -/
theorem processState_apply_ne (cur k : ℤ) (row orow : Row)
    (fc : FixedConstraints) (st : TaskState) (j : ℤ) (hj : j ≠ k) :
    (processState cur k row orow fc st).fixedProductionStarts j = fc.fixedProductionStarts j
    ∧ (processState cur k row orow fc st).earliestProductionStarts j
        = fc.earliestProductionStarts j
    ∧ (processState cur k row orow fc st).fixedArrivalTimes j = fc.fixedArrivalTimes j
    ∧ (processState cur k row orow fc st).earliestTransportStarts j
        = fc.earliestTransportStarts j
    ∧ (processState cur k row orow fc st).fixedInstallationStarts j
        = fc.fixedInstallationStarts j
    ∧ (processState cur k row orow fc st).earliestInstallationStarts j
        = fc.earliestInstallationStarts j := by
  cases hph : st.phase
  case FABRICATION =>
    obtain ⟨e1, e2, e3, e4, e5, e6, _⟩ := processState_fab_effects cur k row orow fc st hph
    exact ⟨e5 j hj, e6 j hj, congrFun e1 j, congrFun e2 j, congrFun e3 j, congrFun e4 j⟩
  case TRANSPORT =>
    obtain ⟨e1, e2, e3, e4, e5, e6, _⟩ := processState_trans_effects cur k row orow fc st hph
    exact ⟨congrFun e1 j, congrFun e2 j, e5 j hj, e6 j hj, congrFun e3 j, congrFun e4 j⟩
  case INSTALLATION =>
    obtain ⟨e1, e2, e3, e4, e5, e6, _⟩ := processState_inst_effects cur k row orow fc st hph
    exact ⟨congrFun e1 j, congrFun e2 j, congrFun e3 j, congrFun e4 j, e5 j hj, e6 j hj⟩

/-- Folding a module's states never changes the six maps at another index. -/
theorem foldl_processState_apply_ne (cur k : ℤ) (row orow : Row) :
    ∀ (states : List TaskState) (fc : FixedConstraints) (j : ℤ), j ≠ k →
    (states.foldl (processState cur k row orow) fc).fixedProductionStarts j
        = fc.fixedProductionStarts j
    ∧ (states.foldl (processState cur k row orow) fc).earliestProductionStarts j
        = fc.earliestProductionStarts j
    ∧ (states.foldl (processState cur k row orow) fc).fixedArrivalTimes j
        = fc.fixedArrivalTimes j
    ∧ (states.foldl (processState cur k row orow) fc).earliestTransportStarts j
        = fc.earliestTransportStarts j
    ∧ (states.foldl (processState cur k row orow) fc).fixedInstallationStarts j
        = fc.fixedInstallationStarts j
    ∧ (states.foldl (processState cur k row orow) fc).earliestInstallationStarts j
        = fc.earliestInstallationStarts j := by
  intro states
  induction states with
  | nil => exact fun fc j hj => ⟨rfl, rfl, rfl, rfl, rfl, rfl⟩
  | cons st rest ih =>
    intro fc j hj
    simp only [List.foldl_cons]
    obtain ⟨i1, i2, i3, i4, i5, i6⟩ := ih (processState cur k row orow fc st) j hj
    obtain ⟨s1, s2, s3, s4, s5, s6⟩ := processState_apply_ne cur k row orow fc st j hj
    exact ⟨i1.trans s1, i2.trans s2, i3.trans s3, i4.trans s4, i5.trans s5, i6.trans s6⟩

/-- Folding a module's states with pairwise-distinct phases, starting from a
constraint set whose six maps are fresh at the module's index, leaves no
family carrying both an exact fix and a lower bound at that index. -/
theorem foldl_processState_pairFree (cur k : ℤ) (row orow : Row) :
    ∀ (states : List TaskState) (fc : FixedConstraints),
      (states.map TaskState.phase).Nodup →
      (Phase.FABRICATION ∈ states.map TaskState.phase →
        fc.fixedProductionStarts k = none ∧ fc.earliestProductionStarts k = none) →
      (Phase.TRANSPORT ∈ states.map TaskState.phase →
        fc.fixedArrivalTimes k = none ∧ fc.earliestTransportStarts k = none) →
      (Phase.INSTALLATION ∈ states.map TaskState.phase →
        fc.fixedInstallationStarts k = none ∧ fc.earliestInstallationStarts k = none) →
      pairFreeAt fc k →
      pairFreeAt (states.foldl (processState cur k row orow) fc) k := by
  intro states
  induction states with
  | nil => exact fun fc _ _ _ _ hfree => hfree
  | cons st rest ih =>
    intro fc hnodup hfab htrans hinst hfree
    simp only [List.map_cons, List.nodup_cons] at hnodup
    simp only [List.map_cons, List.mem_cons] at hfab htrans hinst
    simp only [List.foldl_cons]
    cases hph : st.phase
    case FABRICATION =>
      obtain ⟨e1, e2, e3, e4, _, _, epair⟩ := processState_fab_effects cur k row orow fc st hph
      have hboth := hfab (Or.inl hph.symm)
      refine ih (processState cur k row orow fc st) hnodup.2 ?_ ?_ ?_ ?_
      · intro hmem; exact absurd (hph ▸ hmem) hnodup.1
      · intro hmem
        rw [e1, e2]
        exact htrans (Or.inr hmem)
      · intro hmem
        rw [e3, e4]
        exact hinst (Or.inr hmem)
      · exact ⟨epair hboth.1 hboth.2,
          by rw [e1, e2]; exact hfree.2.1,
          by rw [e3, e4]; exact hfree.2.2⟩
    case TRANSPORT =>
      obtain ⟨e1, e2, e3, e4, _, _, epair⟩ := processState_trans_effects cur k row orow fc st hph
      have hboth := htrans (Or.inl hph.symm)
      refine ih (processState cur k row orow fc st) hnodup.2 ?_ ?_ ?_ ?_
      · intro hmem
        rw [e1, e2]
        exact hfab (Or.inr hmem)
      · intro hmem; exact absurd (hph ▸ hmem) hnodup.1
      · intro hmem
        rw [e3, e4]
        exact hinst (Or.inr hmem)
      · exact ⟨by rw [e1, e2]; exact hfree.1,
          epair hboth.1 hboth.2,
          by rw [e3, e4]; exact hfree.2.2⟩
    case INSTALLATION =>
      obtain ⟨e1, e2, e3, e4, _, _, epair⟩ := processState_inst_effects cur k row orow fc st hph
      have hboth := hinst (Or.inl hph.symm)
      refine ih (processState cur k row orow fc st) hnodup.2 ?_ ?_ ?_ ?_
      · intro hmem
        rw [e1, e2]
        exact hfab (Or.inr hmem)
      · intro hmem
        rw [e3, e4]
        exact htrans (Or.inr hmem)
      · intro hmem; exact absurd (hph ▸ hmem) hnodup.1
      · exact ⟨by rw [e1, e2]; exact hfree.1,
          by rw [e3, e4]; exact hfree.2.1,
          epair hboth.1 hboth.2⟩

theorem processModule_none (cur : ℤ) (df odf : List Row) (fc : FixedConstraints)
    (entry : String × List TaskState) (h : moduleIndexOf df entry.1 = none) :
    processModule cur df odf fc entry = fc := by
  simp [processModule, h]

theorem processModule_some (cur : ℤ) (df odf : List Row) (fc : FixedConstraints)
    (entry : String × List TaskState) (k : ℤ) (h : moduleIndexOf df entry.1 = some k) :
    ∃ row, df.find? (fun r => r.moduleId == entry.1) = some row
      ∧ processModule cur df odf fc entry =
          entry.2.foldl
            (processState cur k row
              ((odf.find? (fun r => r.moduleId == entry.1)).getD row)) fc := by
  have hrev : (df.reverse.find? (fun r => r.moduleId == entry.1)).isSome := by
    simp only [moduleIndexOf] at h
    cases hf : df.reverse.find? (fun r => r.moduleId == entry.1) with
    | none => rw [hf] at h; simp at h
    | some r0 => simp
  have hsome : (df.find? (fun r => r.moduleId == entry.1)).isSome := by
    rw [List.find?_isSome] at hrev ⊢
    obtain ⟨x, hx, hpx⟩ := hrev
    exact ⟨x, List.mem_reverse.mp hx, hpx⟩
  obtain ⟨row, hrow⟩ := Option.isSome_iff_exists.mp hsome
  exact ⟨row, hrow, by simp [processModule, h, hrow]⟩

/-- Folding the module entries preserves index-wise pair-freedom, provided
the resolvable module indices are pairwise distinct, each module's phases are
distinct, and every still-unprocessed module index is fresh. -/
theorem foldl_processModule_pairFree (cur : ℤ) (df odf : List Row) :
    ∀ (ts : List (String × List TaskState)) (fc : FixedConstraints),
      List.Pairwise (fun e1 e2 => ∀ i, moduleIndexOf df e1.1 = some i →
        moduleIndexOf df e2.1 ≠ some i) ts →
      (∀ e ∈ ts, (e.2.map TaskState.phase).Nodup) →
      (∀ j, pairFreeAt fc j) →
      (∀ e ∈ ts, ∀ i, moduleIndexOf df e.1 = some i → allNoneAt fc i) →
      ∀ j, pairFreeAt (ts.foldl (processModule cur df odf) fc) j := by
  intro ts
  induction ts with
  | nil => exact fun fc _ _ hfree _ j => hfree j
  | cons e rest ih =>
    intro fc hpw hph hfree hfresh j
    rw [List.pairwise_cons] at hpw
    simp only [List.foldl_cons]
    cases hidx : moduleIndexOf df e.1
    case none =>
      rw [processModule_none cur df odf fc e hidx]
      exact ih fc hpw.2 (fun e2 he2 => hph e2 (List.mem_cons_of_mem e he2)) hfree
        (fun e2 he2 => hfresh e2 (List.mem_cons_of_mem e he2)) j
    case some k =>
      obtain ⟨row, hrow, heq⟩ := processModule_some cur df odf fc e k hidx
      rw [heq]
      have hall := hfresh e (List.mem_cons_self e rest) k hidx
      refine ih _ hpw.2 (fun e2 he2 => hph e2 (List.mem_cons_of_mem e he2)) ?_ ?_ j
      · -- pair-freedom at every index after this module's states
        intro j2
        by_cases hj2 : j2 = k
        · subst hj2
          exact foldl_processState_pairFree cur j2 row _ e.2 fc
            (hph e (List.mem_cons_self e rest))
            (fun _ => ⟨hall.1, hall.2.1⟩)
            (fun _ => ⟨hall.2.2.1, hall.2.2.2.1⟩)
            (fun _ => ⟨hall.2.2.2.2.1, hall.2.2.2.2.2⟩)
            (hfree j2)
        · obtain ⟨s1, s2, s3, s4, s5, s6⟩ :=
            foldl_processState_apply_ne cur k row _ e.2 fc j2 hj2
          have hf := hfree j2
          exact ⟨by rw [s1, s2]; exact hf.1, by rw [s3, s4]; exact hf.2.1,
            by rw [s5, s6]; exact hf.2.2⟩
      · -- freshness of the remaining modules' indices is preserved
        intro e2 he2 i hi
        have hik : i ≠ k := by
          intro hik
          exact (hpw.1 e2 he2 k hidx) (hik ▸ hi)
        obtain ⟨s1, s2, s3, s4, s5, s6⟩ :=
          foldl_processState_apply_ne cur k row _ e.2 fc i hik
        have hf := hfresh e2 (List.mem_cons_of_mem e he2) i hi
        exact ⟨by rw [s1]; exact hf.1, by rw [s2]; exact hf.2.1,
          by rw [s3]; exact hf.2.2.1, by rw [s4]; exact hf.2.2.2.1,
          by rw [s5]; exact hf.2.2.2.2.1, by rw [s6]; exact hf.2.2.2.2.2⟩

/-- C7: in the constraint set produced by `build_fixed_constraints`, no
module index carries both a fixed exact start (fixed arrival, for transport)
and the corresponding earliest-start lower bound — provided module ids map to
pairwise-distinct indices and each module's state list has distinct phases,
as the task-state identifier produces.  The two mechanism conjuncts state
that NOT_STARTED states never write any fixed-start map, and states other
than NOT_STARTED never write any earliest-start map. -/
theorem buildFixedConstraints_exclusive
    (taskStates : List (String × List TaskState)) (cur : ℤ) (df odf : List Row)
    (hinj : List.Pairwise (fun e1 e2 => ∀ i, moduleIndexOf df e1.1 = some i →
      moduleIndexOf df e2.1 ≠ some i) taskStates)
    (hph : ∀ e ∈ taskStates, (e.2.map TaskState.phase).Nodup) :
    (∀ j, pairFreeAt (buildFixedConstraints taskStates cur df odf) j)
    ∧ (∀ (cur2 k : ℤ) (row orow : Row) (fc : FixedConstraints) (st : TaskState),
        st.status = Status.NOT_STARTED →
        (processState cur2 k row orow fc st).fixedProductionStarts
            = fc.fixedProductionStarts
        ∧ (processState cur2 k row orow fc st).fixedArrivalTimes = fc.fixedArrivalTimes
        ∧ (processState cur2 k row orow fc st).fixedInstallationStarts
            = fc.fixedInstallationStarts)
    ∧ (∀ (cur2 k : ℤ) (row orow : Row) (fc : FixedConstraints) (st : TaskState),
        st.status ≠ Status.NOT_STARTED →
        (processState cur2 k row orow fc st).earliestProductionStarts
            = fc.earliestProductionStarts
        ∧ (processState cur2 k row orow fc st).earliestTransportStarts
            = fc.earliestTransportStarts
        ∧ (processState cur2 k row orow fc st).earliestInstallationStarts
            = fc.earliestInstallationStarts) := by
  refine ⟨?_, ?_, ?_⟩
  · exact foldl_processModule_pairFree cur df odf taskStates emptyFixedConstraints hinj hph
      (fun j => ⟨fun h => h.1 rfl, fun h => h.1 rfl, fun h => h.1 rfl⟩)
      (fun e _ i _ => ⟨rfl, rfl, rfl, rfl, rfl, rfl⟩)
  · intro cur2 k row orow fc st hs
    obtain ⟨smid, smidx, sph, sst, sstart, sfin, sprog, sact⟩ := st
    simp only [TaskState.status] at hs
    subst hs
    cases sph <;>
      simp only [processState, handleFabricationPhase, handleTransportPhase,
        handleInstallationPhase] <;>
      split_ifs <;> exact ⟨rfl, rfl, rfl⟩
  · intro cur2 k row orow fc st hs
    obtain ⟨smid, smidx, sph, sst, sstart, sfin, sprog, sact⟩ := st
    simp only [TaskState.status] at hs
    cases sst
    case NOT_STARTED => exact absurd rfl hs
    case COMPLETED =>
      cases sph <;>
        simp only [processState, handleFabricationPhase, handleTransportPhase,
          handleInstallationPhase] <;>
        rw [if_neg (by simp)] <;> exact ⟨rfl, rfl, rfl⟩
    case IN_PROGRESS =>
      cases sph <;>
        simp only [processState, handleFabricationPhase, handleTransportPhase,
          handleInstallationPhase] <;>
        rw [if_neg (by simp)] <;> exact ⟨rfl, rfl, rfl⟩

/-- Witness for C7 at a concrete input: one module, NOT_STARTED fabrication
with a pending production lower bound and COMPLETED installation; index 1
carries no fixed/lower-bound pair. -/
theorem buildFixedConstraints_exclusive_witness :
    pairFreeAt
      (buildFixedConstraints
        [("A",
          [{ moduleId := "A", moduleIndex := 1, phase := Phase.FABRICATION,
             status := Status.NOT_STARTED, startTime := some 9, finishTime := some 12,
             progress := 0, actualStartTime := none },
           { moduleId := "A", moduleIndex := 1, phase := Phase.INSTALLATION,
             status := Status.COMPLETED, startTime := some 2, finishTime := some 4,
             progress := 1, actualStartTime := none }])]
        6
        [{ moduleId := "A", moduleIndex := 1, productionStart := some 9,
           productionDuration := 4, transportStart := some 13, transportDuration := 2,
           installationStart := some 2, installationDuration := 3,
           arrivalTime := some 15, earliestProductionStart := some 11 }]
        [{ moduleId := "A", moduleIndex := 1, productionStart := some 9,
           productionDuration := 4, transportStart := some 13, transportDuration := 2,
           installationStart := some 2, installationDuration := 3,
           arrivalTime := some 15 }]) 1 :=
  (buildFixedConstraints_exclusive
    [("A",
      [{ moduleId := "A", moduleIndex := 1, phase := Phase.FABRICATION,
         status := Status.NOT_STARTED, startTime := some 9, finishTime := some 12,
         progress := 0, actualStartTime := none },
       { moduleId := "A", moduleIndex := 1, phase := Phase.INSTALLATION,
         status := Status.COMPLETED, startTime := some 2, finishTime := some 4,
         progress := 1, actualStartTime := none }])]
    6
    [{ moduleId := "A", moduleIndex := 1, productionStart := some 9,
       productionDuration := 4, transportStart := some 13, transportDuration := 2,
       installationStart := some 2, installationDuration := 3,
       arrivalTime := some 15, earliestProductionStart := some 11 }]
    [{ moduleId := "A", moduleIndex := 1, productionStart := some 9,
       productionDuration := 4, transportStart := some 13, transportDuration := 2,
       installationStart := some 2, installationDuration := 3,
       arrivalTime := some 15 }]
    (by simp)
    (by intro e he; simp only [List.mem_singleton] at he; subst he; decide)).1 1

/-! ## PrefabScheduler.build_model (model.py)

Module and time indices of the MILP builder are natural numbers: every loop
of `build_model` runs over `range(1, N+1)` / `range(1, T+1)`, and the fixed
maps handed over by the re-optimization flow carry nonnegative indices.  The
constraints relevant to the claims are represented as explicit emissions:
`pin` is an added `var = 1` equality, `zero` an added `var = 0` equality. -/

/-- The three time-indexed binary variable families `x` (installation start),
`q` (production start) and `p` (arrival). -/
inductive VarFam where
  | x
  | q
  | p
deriving DecidableEq, Repr

/-- A Python `i in dict` test on a fixed map. -/
def dictContains (m : List (ℕ × ℕ)) (i : ℕ) : Bool :=
  (m.map Prod.fst).contains i

/-- One `var[i,t] = 0` or `var[i,t] = 1` constraint. -/
inductive FixConstraint where
  | pin (fam : VarFam) (i t : ℕ)
  | zero (fam : VarFam) (i t : ℕ)
deriving DecidableEq, Repr

/-- A logged warning: the fixed value of family `fam` for module `i` lies
after the re-optimization reference time. -/
structure FixWarning where
  fam : VarFam
  i : ℕ
  value : ℕ
deriving DecidableEq, Repr

/-- Section (2e) of `build_model`: when `reoptimize_from_time = r` is set and
`r > 1`, every real module `i` in `[1,N]` that is not a key of the family's
fixed map gets `var[i,t] = 0` for every `t` in `range(1, r)`, for the three
families (installation starts against `fixed_installation_starts`, production
starts against `fixed_production_starts`, arrivals against
`fixed_arrival_times`). -/
def noPastConstraints (N : ℕ) (reoptimizeFromTime : Option ℕ)
    (fixedInstallationStarts fixedProductionStarts fixedArrivalTimes : List (ℕ × ℕ)) :
    List FixConstraint :=
  match reoptimizeFromTime with
  | none => []
  | some r =>
    if 1 < r then
      ((List.range N).map (· + 1)).flatMap (fun i =>
        if dictContains fixedInstallationStarts i then []
        else ((List.range (r - 1)).map (· + 1)).map
          (fun t => FixConstraint.zero VarFam.x i t))
      ++ ((List.range N).map (· + 1)).flatMap (fun i =>
        if dictContains fixedProductionStarts i then []
        else ((List.range (r - 1)).map (· + 1)).map
          (fun t => FixConstraint.zero VarFam.q i t))
      ++ ((List.range N).map (· + 1)).flatMap (fun i =>
        if dictContains fixedArrivalTimes i then []
        else ((List.range (r - 1)).map (· + 1)).map
          (fun t => FixConstraint.zero VarFam.p i t))
    else []

/-- Sections (2a)-(2c) of `build_model`, one entry of a fixed map: inside the
range guard `1 <= i <= N and 1 <= value <= T` the variable is pinned to 1 and
a warning is logged when the value lies after `reoptimize_from_time`; outside
the guard nothing is emitted at all.  The three sections share this shape,
with the family selecting the variable. -/
def fixedStartEmit (N T : ℕ) (reoptimizeFromTime : Option ℕ) (fam : VarFam)
    (entry : ℕ × ℕ) : List FixConstraint × List FixWarning :=
  if 1 ≤ entry.1 ∧ entry.1 ≤ N ∧ 1 ≤ entry.2 ∧ entry.2 ≤ T then
    let warns := match reoptimizeFromTime with
      | some r => if r < entry.2 then [FixWarning.mk fam entry.1 entry.2] else []
      | none => []
    ([FixConstraint.pin fam entry.1 entry.2], warns)
  else ([], [])

/-- Transport block of section (2f) of `build_model`, one entry of
`earliest_transport_starts`: inside the range guard, and when the module's
arrival is not already fixed, the implied earliest arrival is
`earliest_start + L[i]`; only when that value lies inside `[1, T]` are the
arrival variables before it zeroed — otherwise nothing is emitted. -/
def earliestTransportEmit (N T : ℕ) (L : ℕ → ℕ)
    (fixedArrivalTimes : List (ℕ × ℕ)) (entry : ℕ × ℕ) : List FixConstraint :=
  if 1 ≤ entry.1 ∧ entry.1 ≤ N ∧ 1 ≤ entry.2 ∧ entry.2 ≤ T then
    if dictContains fixedArrivalTimes entry.1 then []
    else
      let earliestArrival := entry.2 + L entry.1
      if 1 ≤ earliestArrival ∧ earliestArrival ≤ T then
        ((List.range (earliestArrival - 1)).map (· + 1)).map
          (fun t => FixConstraint.zero VarFam.p entry.1 t)
      else []
  else []

/-- A variable assignment satisfies a list of emitted constraints when every
`var = 0` constraint in it holds (the no-past block emits only zeroes). -/
def satisfiesZeroConstraints (σ : VarFam → ℕ → ℕ → Bool)
    (cs : List FixConstraint) : Prop :=
  ∀ fam i t, FixConstraint.zero fam i t ∈ cs → σ fam i t = false

theorem mem_noPast_block (N r : ℕ) (fm : List (ℕ × ℕ)) (fam : VarFam) (i t : ℕ)
    (h2 : i ≤ N) (hf : dictContains fm i = false)
    (h1 : 1 ≤ i) (h3 : 1 ≤ t) (h4 : t < r) :
    FixConstraint.zero fam i t ∈
      ((List.range N).map (· + 1)).flatMap (fun i =>
        if dictContains fm i then []
        else ((List.range (r - 1)).map (· + 1)).map
          (fun t => FixConstraint.zero fam i t)) := by
  simp only [List.mem_flatMap, List.mem_map, List.mem_range]
  refine ⟨i, ⟨i - 1, by omega, by omega⟩, ?_⟩
  simp only [hf, Bool.false_eq_true, if_false, List.mem_map, List.mem_range]
  exact ⟨t, ⟨t - 1, by omega, by omega⟩, rfl⟩

/-- C1: with `reoptimize_from_time = r > 1`, `build_model` adds
`x[i,t] = 0` for every module `i` in `[1,N]` not in
`fixed_installation_starts` and every `t` in `[1, r)`, and likewise
`q[i,t] = 0` / `p[i,t] = 0` against `fixed_production_starts` /
`fixed_arrival_times`; consequently, in any assignment satisfying these
constraints, an unfixed module's installation start, production start, or
arrival time is never strictly below `r`. -/
theorem no_past_scheduling
    (N r : ℕ)
    (fixedInstallationStarts fixedProductionStarts fixedArrivalTimes : List (ℕ × ℕ))
    (hr : 1 < r) :
    (∀ i t, 1 ≤ i → i ≤ N → dictContains fixedInstallationStarts i = false →
      1 ≤ t → t < r →
      FixConstraint.zero VarFam.x i t ∈
        noPastConstraints N (some r) fixedInstallationStarts
          fixedProductionStarts fixedArrivalTimes)
    ∧ (∀ i t, 1 ≤ i → i ≤ N → dictContains fixedProductionStarts i = false →
      1 ≤ t → t < r →
      FixConstraint.zero VarFam.q i t ∈
        noPastConstraints N (some r) fixedInstallationStarts
          fixedProductionStarts fixedArrivalTimes)
    ∧ (∀ i t, 1 ≤ i → i ≤ N → dictContains fixedArrivalTimes i = false →
      1 ≤ t → t < r →
      FixConstraint.zero VarFam.p i t ∈
        noPastConstraints N (some r) fixedInstallationStarts
          fixedProductionStarts fixedArrivalTimes)
    ∧ (∀ σ : VarFam → ℕ → ℕ → Bool,
        satisfiesZeroConstraints σ
          (noPastConstraints N (some r) fixedInstallationStarts
            fixedProductionStarts fixedArrivalTimes) →
        ∀ i s, 1 ≤ i → i ≤ N → 1 ≤ s →
          (dictContains fixedInstallationStarts i = false →
            σ VarFam.x i s = true → r ≤ s)
          ∧ (dictContains fixedProductionStarts i = false →
            σ VarFam.q i s = true → r ≤ s)
          ∧ (dictContains fixedArrivalTimes i = false →
            σ VarFam.p i s = true → r ≤ s)) := by
  have hx : ∀ i t, 1 ≤ i → i ≤ N → dictContains fixedInstallationStarts i = false →
      1 ≤ t → t < r →
      FixConstraint.zero VarFam.x i t ∈
        noPastConstraints N (some r) fixedInstallationStarts
          fixedProductionStarts fixedArrivalTimes := by
    intro i t h1 h2 hf h3 h4
    simp only [noPastConstraints, if_pos hr, List.mem_append]
    exact Or.inl (Or.inl (mem_noPast_block N r _ VarFam.x i t h2 hf h1 h3 h4))
  have hq : ∀ i t, 1 ≤ i → i ≤ N → dictContains fixedProductionStarts i = false →
      1 ≤ t → t < r →
      FixConstraint.zero VarFam.q i t ∈
        noPastConstraints N (some r) fixedInstallationStarts
          fixedProductionStarts fixedArrivalTimes := by
    intro i t h1 h2 hf h3 h4
    simp only [noPastConstraints, if_pos hr, List.mem_append]
    exact Or.inl (Or.inr (mem_noPast_block N r _ VarFam.q i t h2 hf h1 h3 h4))
  have hp : ∀ i t, 1 ≤ i → i ≤ N → dictContains fixedArrivalTimes i = false →
      1 ≤ t → t < r →
      FixConstraint.zero VarFam.p i t ∈
        noPastConstraints N (some r) fixedInstallationStarts
          fixedProductionStarts fixedArrivalTimes := by
    intro i t h1 h2 hf h3 h4
    simp only [noPastConstraints, if_pos hr, List.mem_append]
    exact Or.inr (mem_noPast_block N r _ VarFam.p i t h2 hf h1 h3 h4)
  refine ⟨hx, hq, hp, ?_⟩
  intro σ hσ i s h1 h2 h3
  refine ⟨fun hf ht => ?_, fun hf ht => ?_, fun hf ht => ?_⟩ <;>
    by_contra hlt <;> rw [not_le] at hlt
  · exact absurd ht (by rw [hσ VarFam.x i s (hx i s h1 h2 hf h3 hlt)]; simp)
  · exact absurd ht (by rw [hσ VarFam.q i s (hq i s h1 h2 hf h3 hlt)]; simp)
  · exact absurd ht (by rw [hσ VarFam.p i s (hp i s h1 h2 hf h3 hlt)]; simp)

/-- Witness for C1 at a concrete input: with N = 2, r = 3 and module 1's
installation fixed, the zero constraint for the unfixed module 2 at time 2 is
emitted. -/
theorem no_past_scheduling_witness :
    FixConstraint.zero VarFam.x 2 2 ∈
      noPastConstraints 2 (some 3) [(1, 2)] [] [] :=
  (no_past_scheduling 2 3 [(1, 2)] [] [] (by decide)).1 2 2
    (by decide) (by decide) (by decide) (by decide) (by decide)

/-- C10: fixed-start/arrival entries whose module index is outside `[1,N]` or
whose time value is outside `[1,T]` are silently ignored by `build_model` —
no constraint and no warning is emitted for them — and an in-range transport
earliest-start entry whose implied earliest arrival
`earliest_start + L[i]` exceeds `T` imposes no restriction at all on the
module's arrival variables. -/
theorem out_of_range_entries_ignored
    (N T : ℕ) (reoptimizeFromTime : Option ℕ) (L : ℕ → ℕ)
    (fixedArrivalTimes : List (ℕ × ℕ)) :
    (∀ (fam : VarFam) (i s : ℕ), ¬(1 ≤ i ∧ i ≤ N ∧ 1 ≤ s ∧ s ≤ T) →
      fixedStartEmit N T reoptimizeFromTime fam (i, s) = ([], []))
    ∧ (∀ i es : ℕ, 1 ≤ i → i ≤ N → 1 ≤ es → es ≤ T →
        dictContains fixedArrivalTimes i = false → T < es + L i →
        earliestTransportEmit N T L fixedArrivalTimes (i, es) = []) := by
  constructor
  · intro fam i s hout
    simp only [fixedStartEmit]
    rw [if_neg hout]
  · intro i es h1 h2 h3 h4 hf hT
    simp only [earliestTransportEmit]
    rw [if_pos ⟨h1, h2, h3, h4⟩, if_neg (by simp [hf]), if_neg (by omega)]

/-- Witness for C10 at a concrete input: with N = 3, T = 10, a fixed start at
time 11 emits nothing (no constraint, no warning), and a transport lower
bound at time 9 with transport duration 5 (implied arrival 14 > 10) emits
nothing. -/
theorem out_of_range_entries_ignored_witness :
    fixedStartEmit 3 10 (some 4) VarFam.x (2, 11) = ([], [])
    ∧ earliestTransportEmit 3 10 (fun _ => 5) [] (2, 9) = [] :=
  ⟨(out_of_range_entries_ignored 3 10 (some 4) (fun _ => 5) []).1 VarFam.x 2 11 (by decide),
   (out_of_range_entries_ignored 3 10 (some 4) (fun _ => 5) []).2 2 9
     (by decide) (by decide) (by decide) (by decide) (by decide) (by decide)⟩

/-! ## Solution extraction and persistence (model.py `get_solution_dict`,
`save_results_to_db`; main.py re-optimization flow) -/

/-- Gurobi terminal status codes used by the source. -/
def GRB_OPTIMAL : ℕ := 2
/-- Gurobi INFEASIBLE status code. -/
def GRB_INFEASIBLE : ℕ := 3
/-- Gurobi INF_OR_UNBD status code. -/
def GRB_INF_OR_UNBD : ℕ := 4
/-- Gurobi UNBOUNDED status code. -/
def GRB_UNBOUNDED : ℕ := 5
/-- Gurobi TIME_LIMIT status code. -/
def GRB_TIME_LIMIT : ℕ := 9
/-- Gurobi INTERRUPTED status code. -/
def GRB_INTERRUPTED : ℕ := 11
/-- Gurobi NUMERIC status code. -/
def GRB_NUMERIC : ℕ := 12
/-- Gurobi SUBOPTIMAL status code. -/
def GRB_SUBOPTIMAL : ℕ := 13

/-- The acceptable terminal statuses `[GRB.OPTIMAL, GRB.TIME_LIMIT,
GRB.SUBOPTIMAL]` shared by `get_solution_dict` and the re-optimization
flow. -/
def acceptableStatuses : List ℕ := [GRB_OPTIMAL, GRB_TIME_LIMIT, GRB_SUBOPTIMAL]

/-- Raw solver assignment read back from the model's variables: binary
variables are read as booleans (the source tests `.X > 0.5`), continuous
inventory levels as rationals. -/
structure SolverAssignment where
  xv : ℕ → ℕ → Bool
  pv : ℕ → ℕ → Bool
  qv : ℕ → ℕ → Bool
  zv : ℕ → Bool
  Fv : ℕ → ℚ
  Iv : ℕ → ℕ → ℚ
  objective : ℚ

/-- The structured per-module solution assembled by `get_solution_dict`. -/
structure SolutionDict where
  objective : ℚ
  status : ℕ
  installationStart : ℕ → Option ℕ
  arrivalTime : ℕ → Option ℕ
  productionStart : ℕ → Option ℕ
  orderTimes : List ℕ
  factoryInventory : List (ℕ × ℚ)
  siteInventory : List ((ℕ × ℕ) × ℚ)
  projectFinishTime : Option ℕ

/-- First time index in `[1,T]` at which a binary time-indexed variable is
set (the extraction loops break at the first `> 0.5` value). -/
def firstSetTime (v : ℕ → Bool) (T : ℕ) : Option ℕ :=
  ((List.range T).map (· + 1)).find? v

/-- `PrefabScheduler.get_solution_dict`: `None` when no model was built, and
`None` for any terminal status outside the acceptable set; otherwise the
extracted solution. -/
def getSolutionDict (N T dummyEnd : ℕ) (modelBuilt : Bool) (status : ℕ)
    (a : SolverAssignment) : Option SolutionDict :=
  if ¬ modelBuilt then none
  else if ¬ acceptableStatuses.contains status then none
  else some
    { objective := a.objective
      status := status
      installationStart := fun i => firstSetTime (a.xv i) T
      arrivalTime := fun i => firstSetTime (a.pv i) T
      productionStart := fun i => firstSetTime (a.qv i) T
      orderTimes := ((List.range T).map (· + 1)).filter a.zv
      factoryInventory := (((List.range T).map (· + 1)).filter
        (fun s => (1 / 1000000 : ℚ) < a.Fv s)).map (fun s => (s, a.Fv s))
      siteInventory := (((List.range N).map (· + 1)).flatMap (fun i =>
        (((List.range T).map (· + 1)).filter
          (fun t => (1 / 1000000 : ℚ) < a.Iv i t)).map (fun t => ((i, t), a.Iv i t))))
      projectFinishTime := firstSetTime (a.xv dummyEnd) T }

/-- Database tables written by `save_results_to_db`. -/
inductive DbWrite where
  | solutionTable
  | summaryTable
  | factoryInventoryTable
  | siteInventoryTable
deriving DecidableEq, Repr

/-- `PrefabScheduler.save_results_to_db`: when `get_solution_dict` yields no
solution the method returns `False` immediately, before touching any table;
otherwise it writes the solution and summary tables and the inventory tables
that have data, and returns `True`. -/
def saveResultsToDb (N T dummyEnd : ℕ) (modelBuilt : Bool) (status : ℕ)
    (a : SolverAssignment) : Bool × List DbWrite :=
  match getSolutionDict N T dummyEnd modelBuilt status a with
  | none => (false, [])
  | some sol =>
    (true,
      [DbWrite.solutionTable, DbWrite.summaryTable]
      ++ (if sol.factoryInventory.isEmpty then [] else [DbWrite.factoryInventoryTable])
      ++ (if sol.siteInventory.isEmpty then [] else [DbWrite.siteInventoryTable]))

/-- Status names shown by the re-optimization flow's failure dialog. -/
def statusName (status : ℕ) : String :=
  if status = GRB_INFEASIBLE then "INFEASIBLE"
  else if status = GRB_UNBOUNDED then "UNBOUNDED"
  else if status = GRB_INF_OR_UNBD then "INF_OR_UNBD"
  else if status = GRB_INTERRUPTED then "INTERRUPTED"
  else if status = GRB_NUMERIC then "NUMERIC"
  else "Status " ++ toString status

/-- Outcome of the re-optimization branch of `MainWindow.on_calculate_clicked`
after the solver returns. -/
inductive ReoptOutcome where
  | abortedStatus (name : String)
  | abortedSaveFailed
  | completed (writes : List DbWrite)
deriving DecidableEq, Repr

/-- The post-solve part of the re-optimization flow: a terminal status
outside the acceptable set is reported with its name and aborts before any
save; otherwise the results are saved and a save failure aborts. -/
def reoptimizeFlow (N T dummyEnd : ℕ) (status : ℕ) (a : SolverAssignment) :
    ReoptOutcome :=
  if ¬ acceptableStatuses.contains status then
    ReoptOutcome.abortedStatus (statusName status)
  else
    match saveResultsToDb N T dummyEnd true status a with
    | (false, _) => ReoptOutcome.abortedSaveFailed
    | (true, writes) => ReoptOutcome.completed writes

/-- C8: for any terminal status outside {optimal, time-limit, suboptimal}
(infeasible and unbounded in particular are outside), no solution is
extracted (`get_solution_dict` is `None`), `save_results_to_db` returns
`False` without performing any database write, and the re-optimization flow
aborts reporting the status name, before saving. -/
theorem unacceptable_status_aborts
    (N T dummyEnd : ℕ) (status : ℕ) (a : SolverAssignment)
    (h : acceptableStatuses.contains status = false) :
    getSolutionDict N T dummyEnd true status a = none
    ∧ saveResultsToDb N T dummyEnd true status a = (false, [])
    ∧ reoptimizeFlow N T dummyEnd status a
        = ReoptOutcome.abortedStatus (statusName status)
    ∧ acceptableStatuses.contains GRB_INFEASIBLE = false
    ∧ acceptableStatuses.contains GRB_UNBOUNDED = false := by
  have hget : getSolutionDict N T dummyEnd true status a = none := by
    simp only [getSolutionDict]
    rw [if_neg (by simp), if_pos (by simpa using h)]
  refine ⟨hget, ?_, ?_, by decide, by decide⟩
  · simp only [saveResultsToDb, hget]
  · simp only [reoptimizeFlow]
    rw [if_pos (by simpa using h)]

/-- Witness for C8 at the INFEASIBLE status and an arbitrary concrete
assignment: nothing is extracted, nothing is written, the flow aborts with
the status name "INFEASIBLE". -/
theorem unacceptable_status_aborts_witness :
    getSolutionDict 2 5 3 true GRB_INFEASIBLE
        { xv := fun _ _ => false, pv := fun _ _ => false, qv := fun _ _ => false,
          zv := fun _ => false, Fv := fun _ => 0, Iv := fun _ _ => 0, objective := 0 }
      = none
    ∧ saveResultsToDb 2 5 3 true GRB_INFEASIBLE
        { xv := fun _ _ => false, pv := fun _ _ => false, qv := fun _ _ => false,
          zv := fun _ => false, Fv := fun _ => 0, Iv := fun _ _ => 0, objective := 0 }
      = (false, [])
    ∧ reoptimizeFlow 2 5 3 GRB_INFEASIBLE
        { xv := fun _ _ => false, pv := fun _ _ => false, qv := fun _ _ => false,
          zv := fun _ => false, Fv := fun _ => 0, Iv := fun _ _ => 0, objective := 0 }
      = ReoptOutcome.abortedStatus (statusName GRB_INFEASIBLE) :=
  ⟨(unacceptable_status_aborts 2 5 3 GRB_INFEASIBLE _ (by decide)).1,
   (unacceptable_status_aborts 2 5 3 GRB_INFEASIBLE _ (by decide)).2.1,
   (unacceptable_status_aborts 2 5 3 GRB_INFEASIBLE _ (by decide)).2.2.1⟩
